import Mathlib

set_option maxRecDepth 4000

/-!
Shallow embedding of the gymshark/aws-go-isb-client library (Go) in Lean 4.

Modelling conventions:
* Go byte strings are modelled as Lean `String` / `List Char`; all concrete
  inputs in the development are ASCII, where the two coincide byte-for-byte.
* JSON bodies are modelled by the abstract value type `JsonVal` (numbers are
  restricted to integers, which covers every input the claims exercise).
  An HTTP response carries both its raw body text and the result of parsing
  that text as JSON (`none` when the text is not JSON); the pairing models
  Go's `json.Decode` reading the same buffered bytes at every decode site.
* Go's `json.Unmarshal` into the concrete envelope structs is modelled
  field-by-field (absent or null fields keep their zero values, a field of
  the wrong JSON type makes the whole decode fail, duplicate keys are
  last-wins, unknown keys are ignored).
* Fallible Go functions returning `(T, error)` become `Except`/`Option`
  values; a nil-pointer dereference (a Go panic) is a distinguished
  `Outcome.nilPanic` result, not an error value.
-/

/-- Character-list test that `l` begins with `p` (Go strings.HasPrefix). -/
def leadsWith : List Char → List Char → Bool
  | _, [] => true
  | [], _ :: _ => false
  | a :: l, b :: p => a == b && leadsWith l p

/-- Character-list substring containment (Go strings.Contains). -/
def containsSub : List Char → List Char → Bool
  | [], p => p.isEmpty
  | a :: l, p => leadsWith (a :: l) p || containsSub l p

/-- String form of `leadsWith` (Go strings.HasPrefix on strings). -/
def strLeads (s p : String) : Bool := leadsWith s.data p.data

/-- String form of `containsSub` (Go strings.Contains on strings). -/
def strContains (s p : String) : Bool := containsSub s.data p.data

/-- Abstract JSON value; the result of parsing a response body. -/
inductive JsonVal where
  | null
  | bool (b : Bool)
  | num (n : Int)
  | str (s : String)
  | arr (items : List JsonVal)
  | obj (fields : List (String × JsonVal))
deriving Repr

/-- Object-field lookup; later duplicates win, as in Go's streaming decoder. -/
def jlookup (fields : List (String × JsonVal)) (key : String) : Option JsonVal :=
  fields.foldl (fun acc kv => if kv.1 = key then some kv.2 else acc) none

/-- Decode a struct field of Go type string: absent/null keeps the zero value,
a JSON string decodes to itself, any other JSON type is a decode error. -/
def decodeStrField (fields : List (String × JsonVal)) (key : String) : Option String :=
  match jlookup fields key with
  | none => some ""
  | some .null => some ""
  | some (.str s) => some s
  | some _ => none

/-- Decode a struct field of Go type int. -/
def decodeIntField (fields : List (String × JsonVal)) (key : String) : Option Int :=
  match jlookup fields key with
  | none => some 0
  | some .null => some 0
  | some (.num n) => some n
  | some _ => none

/-- Decode a struct field of Go type map[string]interface: any object is
accepted (values are unconstrained), absent/null keeps the nil map. -/
def decodeMapField (fields : List (String × JsonVal)) (key : String) :
    Option (List (String × JsonVal)) :=
  match jlookup fields key with
  | none => some []
  | some .null => some []
  | some (.obj fs) => some fs
  | some _ => none

/-- FailErrorDetail: one entry of a fail envelope's data.errors list. -/
structure FailErrorDetail where
  message : String
deriving Repr, DecidableEq

/-- Decode one element of data.errors as a FailErrorDetail struct. -/
def decodeFailDetail : JsonVal → Option FailErrorDetail
  | .null => some ⟨""⟩
  | .obj fs => (decodeStrField fs "message").map (⟨·⟩)
  | _ => none

/-- Result of unmarshalling into the anonymous failBody struct of
DecodeAPIError: status plus the data.errors list. -/
structure FailBodyS where
  status : String
  errors : List FailErrorDetail
deriving Repr

/-- Decode the data field of the failBody struct (data.errors). -/
def decodeFailData (fields : List (String × JsonVal)) : Option (List FailErrorDetail) :=
  match jlookup fields "data" with
  | none => some []
  | some .null => some []
  | some (.obj ds) =>
    match jlookup ds "errors" with
    | none => some []
    | some .null => some []
    | some (.arr xs) => xs.mapM decodeFailDetail
    | some _ => none
  | some _ => none

/-- Go json.Unmarshal of a JSON value into the failBody struct. -/
def decodeFailBody : JsonVal → Option FailBodyS
  | .null => some ⟨"", []⟩
  | .obj fs => do
    let s ← decodeStrField fs "status"
    let es ← decodeFailData fs
    pure ⟨s, es⟩
  | _ => none

/-- Result of unmarshalling into the anonymous errorBody struct of
DecodeAPIError: status, message, code and data. -/
structure ErrorBodyS where
  status : String
  message : String
  code : Int
  data : List (String × JsonVal)
deriving Repr

/-- Go json.Unmarshal of a JSON value into the errorBody struct. -/
def decodeErrorBody : JsonVal → Option ErrorBodyS
  | .null => some ⟨"", "", 0, []⟩
  | .obj fs => do
    let s ← decodeStrField fs "status"
    let m ← decodeStrField fs "message"
    let c ← decodeIntField fs "code"
    let d ← decodeMapField fs "data"
    pure ⟨s, m, c, d⟩
  | _ => none

/-- The closed set of typed error values produced by the library, one
constructor per Go error type (errors.go). Fields follow the Go structs;
the embedded APIResponseError contributes statusCode/body/message fields. -/
inductive APIError where
  | apiRequestError (op url msg : String)
  | apiResponseError (statusCode : Nat) (body message : String)
  | failResponseError (status : String) (errors : List FailErrorDetail) (statusCode : Nat)
  | serverError (statusCode : Nat) (message : String) (code : Int)
      (data : List (String × JsonVal))
  | jsonDecodingError (msg : String)
  | badRequestError (statusCode : Nat) (message : String) (errors : List FailErrorDetail)
      (requestBody : String)
  | unauthorizedError (statusCode : Nat) (message : String)
  | notFoundError (statusCode : Nat) (message : String) (errors : List FailErrorDetail)
  | conflictError (statusCode : Nat) (message : String) (errors : List FailErrorDetail)
  | leaseNotFoundError (statusCode : Nat) (message : String) (errors : List FailErrorDetail)
  | leaseTemplateNotFoundError (statusCode : Nat) (message : String)
      (errors : List FailErrorDetail)
  | accountNotFoundError (statusCode : Nat) (message : String) (errors : List FailErrorDetail)
  | leaseConflictError (statusCode : Nat) (message : String) (errors : List FailErrorDetail)
  | leaseTemplateConflictError (statusCode : Nat) (message : String)
      (errors : List FailErrorDetail)
  | accountConflictError (statusCode : Nat) (message : String) (errors : List FailErrorDetail)
deriving Repr

/-- An HTTP response as the library observes it: status code, declared
content type, the raw body text, the JSON parse of that text (none when the
body is not valid JSON), and the path component of the request URL
(resp.Request.URL.Path). -/
structure HttpResponse where
  statusCode : Nat
  contentType : String
  bodyRaw : String
  bodyJson : Option JsonVal
  reqPath : String
deriving Repr

/-- Second and third steps of DecodeAPIError's fallback chain: try the error
envelope, else the generic response error with the raw body. -/
def apiErrorFallback2 (resp : HttpResponse) : APIError :=
  match resp.bodyJson.bind decodeErrorBody with
  | some e =>
    if e.status = "error" then
      .serverError resp.statusCode e.message e.code e.data
    else
      .apiResponseError resp.statusCode resp.bodyRaw ""
  | none => .apiResponseError resp.statusCode resp.bodyRaw ""

/-- Fallback chain after the status-code switch of DecodeAPIError: try the
fail envelope, then the error envelope, then the generic response error. -/
def apiErrorFallback (resp : HttpResponse) : APIError :=
  match resp.bodyJson.bind decodeFailBody with
  | some f =>
    if f.status = "fail" then
      .failResponseError f.status f.errors resp.statusCode
    else
      apiErrorFallback2 resp
  | none => apiErrorFallback2 resp

/-- DecodeAPIError (errors.go): classify a failed HTTP response into exactly
one typed error, switching on status code, then falling back. -/
def DecodeAPIError (reqBody : Option String) (resp : HttpResponse) : APIError :=
  let urlPath := resp.reqPath
  match resp.statusCode with
  | 400 =>
    match resp.bodyJson.bind decodeFailBody with
    | some f =>
      if f.status = "fail" then
        .badRequestError 400 "bad request" f.errors (reqBody.getD "")
      else apiErrorFallback resp
    | none => apiErrorFallback resp
  | 401 | 403 =>
    match resp.bodyJson.bind decodeFailBody with
    | some f =>
      if f.status = "fail" then
        .unauthorizedError resp.statusCode "unauthorized"
      else apiErrorFallback resp
    | none => apiErrorFallback resp
  | 404 =>
    match resp.bodyJson.bind decodeFailBody with
    | some f =>
      if f.status = "fail" then
        if strLeads urlPath "/leases/" then
          .leaseNotFoundError 404 "lease not found" f.errors
        else if strLeads urlPath "/leaseTemplates/" then
          .leaseTemplateNotFoundError 404 "lease template not found" f.errors
        else if strLeads urlPath "/accounts/" then
          .accountNotFoundError 404 "account not found" f.errors
        else
          .notFoundError 404 "not found" f.errors
      else apiErrorFallback resp
    | none => apiErrorFallback resp
  | 409 =>
    match resp.bodyJson.bind decodeFailBody with
    | some f =>
      if f.status = "fail" then
        if strLeads urlPath "/leases/" then
          .leaseConflictError 409 "lease conflict" f.errors
        else if strLeads urlPath "/leaseTemplates/" then
          .leaseTemplateConflictError 409 "lease template conflict" f.errors
        else if strLeads urlPath "/accounts/" then
          .accountConflictError 409 "account conflict" f.errors
        else
          .conflictError 409 "conflict" f.errors
      else apiErrorFallback resp
    | none => apiErrorFallback resp
  | 500 =>
    match resp.bodyJson.bind decodeErrorBody with
    | some e =>
      if e.status = "error" then
        .serverError 500 e.message e.code e.data
      else apiErrorFallback resp
    | none => apiErrorFallback resp
  | _ => apiErrorFallback resp

/-- Status-specific handling succeeded: the condition under which the switch
of DecodeAPIError returns without reaching the fallback chain. -/
def statusSpecificHandled (resp : HttpResponse) : Bool :=
  match resp.statusCode with
  | 400 | 401 | 403 | 404 | 409 =>
    match resp.bodyJson.bind decodeFailBody with
    | some f => decide (f.status = "fail")
    | none => false
  | 500 =>
    match resp.bodyJson.bind decodeErrorBody with
    | some e => decide (e.status = "error")
    | none => false
  | _ => false

theorem decodeAPIError_eq_fallback_of_not_handled
    (reqBody : Option String) (resp : HttpResponse)
    (h : statusSpecificHandled resp = false) :
    DecodeAPIError reqBody resp = apiErrorFallback resp := by
  obtain ⟨sc, ct, raw, js, path⟩ := resp
  simp only [statusSpecificHandled] at h
  simp only [DecodeAPIError]
  split at h <;> first
    | rfl
    | (split <;> simp_all)

theorem apiErrorFallback_fail (resp : HttpResponse) (f : FailBodyS)
    (hf : resp.bodyJson.bind decodeFailBody = some f) (hs : f.status = "fail") :
    apiErrorFallback resp = .failResponseError f.status f.errors resp.statusCode := by
  simp [apiErrorFallback, hf, hs]

theorem apiErrorFallback_error (resp : HttpResponse) (e : ErrorBodyS)
    (hf : ∀ f, resp.bodyJson.bind decodeFailBody = some f → f.status ≠ "fail")
    (he : resp.bodyJson.bind decodeErrorBody = some e) (hs : e.status = "error") :
    apiErrorFallback resp = .serverError resp.statusCode e.message e.code e.data := by
  unfold apiErrorFallback apiErrorFallback2
  split
  · rename_i f hsome
    rw [if_neg (hf f hsome)]
    rw [he]
    simp [hs]
  · rw [he]
    simp [hs]

theorem apiErrorFallback_generic (resp : HttpResponse)
    (hf : ∀ f, resp.bodyJson.bind decodeFailBody = some f → f.status ≠ "fail")
    (he : ∀ e, resp.bodyJson.bind decodeErrorBody = some e → e.status ≠ "error") :
    apiErrorFallback resp = .apiResponseError resp.statusCode resp.bodyRaw "" := by
  unfold apiErrorFallback apiErrorFallback2
  split
  · rename_i f hsome
    rw [if_neg (hf f hsome)]
    split
    · rename_i e hesome
      rw [if_neg (he e hesome)]
    · rfl
  · split
    · rename_i e hesome
      rw [if_neg (he e hesome)]
    · rfl

/-- C1: for every HTTP response, whenever the status-specific decode for the
status code did not succeed, DecodeAPIError applies the fallback chain in
order: a body decoding as a fail envelope with status "fail" yields a generic
FailResponseError carrying the status string, the response status code and
the detail-error list; otherwise a body decoding as an error envelope with
status "error" yields a generic ServerError tagged with the actual status
code; otherwise the generic APIResponseError carries the raw status code and
the raw body text verbatim. DecodeAPIError is total, so exactly one typed
error is produced for any status code and any body. -/
theorem decodeAPIError_fallback_chain
    (reqBody : Option String) (resp : HttpResponse)
    (h : statusSpecificHandled resp = false) :
    (∀ f, resp.bodyJson.bind decodeFailBody = some f → f.status = "fail" →
      DecodeAPIError reqBody resp =
        .failResponseError f.status f.errors resp.statusCode)
    ∧ ((∀ f, resp.bodyJson.bind decodeFailBody = some f → f.status ≠ "fail") →
       ∀ e, resp.bodyJson.bind decodeErrorBody = some e → e.status = "error" →
      DecodeAPIError reqBody resp =
        .serverError resp.statusCode e.message e.code e.data)
    ∧ ((∀ f, resp.bodyJson.bind decodeFailBody = some f → f.status ≠ "fail") →
       (∀ e, resp.bodyJson.bind decodeErrorBody = some e → e.status ≠ "error") →
      DecodeAPIError reqBody resp =
        .apiResponseError resp.statusCode resp.bodyRaw "") := by
  refine ⟨?_, ?_, ?_⟩
  · intro f hf hs
    rw [decodeAPIError_eq_fallback_of_not_handled reqBody resp h]
    exact apiErrorFallback_fail resp f hf hs
  · intro hf e he hs
    rw [decodeAPIError_eq_fallback_of_not_handled reqBody resp h]
    exact apiErrorFallback_error resp e hf he hs
  · intro hf he
    rw [decodeAPIError_eq_fallback_of_not_handled reqBody resp h]
    exact apiErrorFallback_generic resp hf he

/-- Concrete response used by the C1 witness: status 418 with a fail
envelope body. -/
def respFallbackFail : HttpResponse :=
  { statusCode := 418
    contentType := "application/json"
    bodyRaw := "\x7b\"status\":\"fail\",\"data\":\x7b\"errors\":[\x7b\"message\":\"fail error\"\x7d]\x7d\x7d"
    bodyJson := some (.obj [("status", .str "fail"),
      ("data", .obj [("errors", .arr [.obj [("message", .str "fail error")]])])])
    reqPath := "/other" }

theorem decodeAPIError_fallback_chain_witness :
    DecodeAPIError none respFallbackFail =
      .failResponseError "fail" [⟨"fail error"⟩] 418 :=
  (decodeAPIError_fallback_chain none respFallbackFail (by rfl)).1
    ⟨"fail", [⟨"fail error"⟩]⟩ (by rfl) (by rfl)

theorem leadsWith_comparable (l p1 p2 : List Char)
    (h1 : leadsWith l p1 = true) (h2 : leadsWith l p2 = true) :
    leadsWith p1 p2 = true ∨ leadsWith p2 p1 = true := by
  induction l generalizing p1 p2 with
  | nil =>
    cases p1 with
    | nil => right; cases p2 <;> simp [leadsWith]
    | cons c1 q1 => cases p2 <;> simp_all [leadsWith]
  | cons a l ih =>
    cases p1 with
    | nil => right; cases p2 <;> simp [leadsWith]
    | cons c1 q1 =>
      cases p2 with
      | nil => left; simp [leadsWith]
      | cons c2 q2 =>
        simp only [leadsWith, Bool.and_eq_true, beq_iff_eq] at h1 h2 ⊢
        rcases h1 with ⟨rfl, h1⟩
        rcases h2 with ⟨rfl, h2⟩
        rcases ih q1 q2 h1 h2 with h | h
        · exact Or.inl ⟨rfl, h⟩
        · exact Or.inr ⟨rfl, h⟩

theorem strLeads_excl (p a b : String)
    (hab : leadsWith a.data b.data = false) (hba : leadsWith b.data a.data = false)
    (h : strLeads p a = true) : strLeads p b = false := by
  unfold strLeads at *
  by_contra hc
  rw [Bool.not_eq_false] at hc
  rcases leadsWith_comparable p.data a.data b.data h hc with h1 | h1
  · rw [h1] at hab; simp at hab
  · rw [h1] at hba; simp at hba

/-- C2: for every 404 response whose body decodes as a fail envelope with
status "fail", classification dispatches on the request path: a /leases/
path yields LeaseNotFoundError, a /leaseTemplates/ path yields
LeaseTemplateNotFoundError, an /accounts/ path yields AccountNotFoundError,
and any other path yields the generic NotFoundError, each carrying the
envelope's detail-error list; the same structure holds for 409 with the
Conflict variants. -/
theorem decodeAPIError_404_409_path_dispatch
    (reqBody : Option String) (resp : HttpResponse) (f : FailBodyS)
    (hf : resp.bodyJson.bind decodeFailBody = some f) (hs : f.status = "fail") :
    (resp.statusCode = 404 →
      (strLeads resp.reqPath "/leases/" = true →
        DecodeAPIError reqBody resp = .leaseNotFoundError 404 "lease not found" f.errors)
      ∧ (strLeads resp.reqPath "/leaseTemplates/" = true →
        DecodeAPIError reqBody resp =
          .leaseTemplateNotFoundError 404 "lease template not found" f.errors)
      ∧ (strLeads resp.reqPath "/accounts/" = true →
        DecodeAPIError reqBody resp = .accountNotFoundError 404 "account not found" f.errors)
      ∧ (strLeads resp.reqPath "/leases/" = false →
         strLeads resp.reqPath "/leaseTemplates/" = false →
         strLeads resp.reqPath "/accounts/" = false →
        DecodeAPIError reqBody resp = .notFoundError 404 "not found" f.errors))
    ∧ (resp.statusCode = 409 →
      (strLeads resp.reqPath "/leases/" = true →
        DecodeAPIError reqBody resp = .leaseConflictError 409 "lease conflict" f.errors)
      ∧ (strLeads resp.reqPath "/leaseTemplates/" = true →
        DecodeAPIError reqBody resp =
          .leaseTemplateConflictError 409 "lease template conflict" f.errors)
      ∧ (strLeads resp.reqPath "/accounts/" = true →
        DecodeAPIError reqBody resp = .accountConflictError 409 "account conflict" f.errors)
      ∧ (strLeads resp.reqPath "/leases/" = false →
         strLeads resp.reqPath "/leaseTemplates/" = false →
         strLeads resp.reqPath "/accounts/" = false →
        DecodeAPIError reqBody resp = .conflictError 409 "conflict" f.errors)) := by
  obtain ⟨sc, ct, raw, js, path⟩ := resp
  simp only at hf ⊢
  constructor
  · rintro rfl
    refine ⟨?_, ?_, ?_, ?_⟩
    · intro hl
      simp [DecodeAPIError, hf, hs, hl]
    · intro hl
      have h1 : strLeads path "/leases/" = false :=
        strLeads_excl path "/leaseTemplates/" "/leases/" (by decide) (by decide) hl
      simp [DecodeAPIError, hf, hs, hl, h1]
    · intro hl
      have h1 : strLeads path "/leases/" = false :=
        strLeads_excl path "/accounts/" "/leases/" (by decide) (by decide) hl
      have h2 : strLeads path "/leaseTemplates/" = false :=
        strLeads_excl path "/accounts/" "/leaseTemplates/" (by decide) (by decide) hl
      simp [DecodeAPIError, hf, hs, hl, h1, h2]
    · intro h1 h2 h3
      simp [DecodeAPIError, hf, hs, h1, h2, h3]
  · rintro rfl
    refine ⟨?_, ?_, ?_, ?_⟩
    · intro hl
      simp [DecodeAPIError, hf, hs, hl]
    · intro hl
      have h1 : strLeads path "/leases/" = false :=
        strLeads_excl path "/leaseTemplates/" "/leases/" (by decide) (by decide) hl
      simp [DecodeAPIError, hf, hs, hl, h1]
    · intro hl
      have h1 : strLeads path "/leases/" = false :=
        strLeads_excl path "/accounts/" "/leases/" (by decide) (by decide) hl
      have h2 : strLeads path "/leaseTemplates/" = false :=
        strLeads_excl path "/accounts/" "/leaseTemplates/" (by decide) (by decide) hl
      simp [DecodeAPIError, hf, hs, hl, h1, h2]
    · intro h1 h2 h3
      simp [DecodeAPIError, hf, hs, h1, h2, h3]

/-- Concrete 404 response on a /leases/ path used by the C2 witness. -/
def respLeases404 : HttpResponse :=
  { statusCode := 404
    contentType := "application/json"
    bodyRaw := "\x7b\"status\":\"fail\",\"data\":\x7b\"errors\":[\x7b\"message\":\"no such lease\"\x7d]\x7d\x7d"
    bodyJson := some (.obj [("status", .str "fail"),
      ("data", .obj [("errors", .arr [.obj [("message", .str "no such lease")]])])])
    reqPath := "/leases/abc" }

theorem decodeAPIError_404_409_path_dispatch_witness :
    DecodeAPIError none respLeases404 =
      .leaseNotFoundError 404 "lease not found" [⟨"no such lease"⟩] :=
  ((decodeAPIError_404_409_path_dispatch none respLeases404
      ⟨"fail", [⟨"no such lease"⟩]⟩ (by rfl) (by rfl)).1 (by rfl)).1 (by decide)

/-- Concrete 404 fail-envelope response whose request path carries the base
URL path prefix "/leases" in front of the route "/leases/abc", as produced by
a client whose base URL ends in the non-empty path "/leases". -/
def respPrefixedLeases404 : HttpResponse :=
  { statusCode := 404
    contentType := "application/json"
    bodyRaw := "\x7b\"status\":\"fail\",\"data\":\x7b\"errors\":[\x7b\"message\":\"gone\"\x7d]\x7d\x7d"
    bodyJson := some (.obj [("status", .str "fail"),
      ("data", .obj [("errors", .arr [.obj [("message", .str "gone")]])])])
    reqPath := "/leases/leases/abc" }

/-- C9 counterexample: a client whose base URL has the non-empty path prefix
"/leases" issues requests whose paths still begin with the literal /leases/,
so a 404 fail-envelope response is classified as the resource-specific
LeaseNotFoundError, refuting the claim that classification under any
non-empty base path prefix is never resource-specific. -/
theorem decodeAPIError_prefixed_base_counterexample :
    respPrefixedLeases404.reqPath = "/leases" ++ "/leases/abc"
    ∧ DecodeAPIError none respPrefixedLeases404 =
        .leaseNotFoundError 404 "lease not found" [⟨"gone"⟩] :=
  ⟨rfl, rfl⟩

/-- C9 (amended): the classifier selects a resource-specific Not-Found or
Conflict variant exactly when the request URL path begins literally with
/leases/, /leaseTemplates/ or /accounts/; whenever the full request path
begins with none of the three literals — in particular for a client whose
base URL adds a path prefix such as /api, making request paths look like
/api/leases/id — a 404 or 409 fail-envelope response is classified as the
generic NotFoundError or ConflictError. -/
theorem decodeAPIError_resource_dispatch_literal_only
    (reqBody : Option String) (resp : HttpResponse) (f : FailBodyS)
    (hf : resp.bodyJson.bind decodeFailBody = some f) (hs : f.status = "fail") :
    (resp.statusCode = 404 →
      ((DecodeAPIError reqBody resp = .leaseNotFoundError 404 "lease not found" f.errors)
        ↔ strLeads resp.reqPath "/leases/" = true)
      ∧ ((DecodeAPIError reqBody resp =
            .leaseTemplateNotFoundError 404 "lease template not found" f.errors)
        ↔ strLeads resp.reqPath "/leaseTemplates/" = true)
      ∧ ((DecodeAPIError reqBody resp = .accountNotFoundError 404 "account not found" f.errors)
        ↔ strLeads resp.reqPath "/accounts/" = true)
      ∧ (strLeads resp.reqPath "/leases/" = false →
         strLeads resp.reqPath "/leaseTemplates/" = false →
         strLeads resp.reqPath "/accounts/" = false →
        DecodeAPIError reqBody resp = .notFoundError 404 "not found" f.errors))
    ∧ (resp.statusCode = 409 →
      ((DecodeAPIError reqBody resp = .leaseConflictError 409 "lease conflict" f.errors)
        ↔ strLeads resp.reqPath "/leases/" = true)
      ∧ ((DecodeAPIError reqBody resp =
            .leaseTemplateConflictError 409 "lease template conflict" f.errors)
        ↔ strLeads resp.reqPath "/leaseTemplates/" = true)
      ∧ ((DecodeAPIError reqBody resp = .accountConflictError 409 "account conflict" f.errors)
        ↔ strLeads resp.reqPath "/accounts/" = true)
      ∧ (strLeads resp.reqPath "/leases/" = false →
         strLeads resp.reqPath "/leaseTemplates/" = false →
         strLeads resp.reqPath "/accounts/" = false →
        DecodeAPIError reqBody resp = .conflictError 409 "conflict" f.errors)) := by
  obtain ⟨sc, ct, raw, js, path⟩ := resp
  simp only at hf ⊢
  constructor <;> rintro rfl <;>
  · by_cases hl1 : strLeads path "/leases/" = true
    · have h2 := strLeads_excl path "/leases/" "/leaseTemplates/" (by decide) (by decide) hl1
      have h3 := strLeads_excl path "/leases/" "/accounts/" (by decide) (by decide) hl1
      refine ⟨?_, ?_, ?_, ?_⟩ <;> simp [DecodeAPIError, hf, hs, hl1, h2, h3]
    · rw [Bool.not_eq_true] at hl1
      by_cases hl2 : strLeads path "/leaseTemplates/" = true
      · have h3 := strLeads_excl path "/leaseTemplates/" "/accounts/" (by decide) (by decide) hl2
        refine ⟨?_, ?_, ?_, ?_⟩ <;> simp [DecodeAPIError, hf, hs, hl1, hl2, h3]
      · rw [Bool.not_eq_true] at hl2
        by_cases hl3 : strLeads path "/accounts/" = true
        · refine ⟨?_, ?_, ?_, ?_⟩ <;> simp [DecodeAPIError, hf, hs, hl1, hl2, hl3]
        · rw [Bool.not_eq_true] at hl3
          refine ⟨?_, ?_, ?_, ?_⟩ <;> simp [DecodeAPIError, hf, hs, hl1, hl2, hl3]

/-- Concrete 404 fail-envelope response on the prefixed path /api/leases/abc
used by the C9 witness. -/
def respApiPrefixed404 : HttpResponse :=
  { statusCode := 404
    contentType := "application/json"
    bodyRaw := "\x7b\"status\":\"fail\",\"data\":\x7b\"errors\":[\x7b\"message\":\"gone\"\x7d]\x7d\x7d"
    bodyJson := some (.obj [("status", .str "fail"),
      ("data", .obj [("errors", .arr [.obj [("message", .str "gone")]])])])
    reqPath := "/api/leases/abc" }

theorem decodeAPIError_resource_dispatch_literal_only_witness :
    DecodeAPIError none respApiPrefixed404 =
      .notFoundError 404 "not found" [⟨"gone"⟩] :=
  ((decodeAPIError_resource_dispatch_literal_only none respApiPrefixed404
      ⟨"fail", [⟨"gone"⟩]⟩ (by rfl) (by rfl)).1 (by rfl)).2.2.2
    (by decide) (by decide) (by decide)

/-- isJSONResponse (client.go): true when the body is empty or the declared
Content-Type contains the literal application/json; the returned string is
always empty in the source. -/
def isJSONResponse (resp : HttpResponse) : Bool × String :=
  if resp.bodyRaw = "" then (true, "")
  else if resp.contentType.length < ("application/json").length
      ∨ strContains resp.contentType "application/json" = false then (false, "")
  else (true, "")

/-- Message text of the transport error raised on a non-JSON response; the
body component comes from isJSONResponse and is always empty. -/
def nonJSONMsg (contentType body : String) : String :=
  "non-JSON response (" ++ contentType ++ "): " ++ body

/-- doGet (client.go): the network call is modelled by its result, an
HttpResponse or a transport-failure cause string (request construction,
which cannot fail for the URLs the client builds, is not modelled). -/
def doGet (url : String) (transport : Except String HttpResponse) :
    Except APIError HttpResponse :=
  match transport with
  | .error cause => .error (.apiRequestError "do" url cause)
  | .ok resp =>
    let r := isJSONResponse resp
    if r.1 = false then
      .error (.apiRequestError "doGet" url (nonJSONMsg resp.contentType r.2))
    else if resp.statusCode ≠ 200 then
      .error (DecodeAPIError none resp)
    else
      .ok resp

/-- doPost (client.go): accepts 200 or 201, else classifies, passing the
request body to the classifier. -/
def doPost (url : String) (body : Option String) (transport : Except String HttpResponse) :
    Except APIError HttpResponse :=
  match transport with
  | .error cause => .error (.apiRequestError "do" url cause)
  | .ok resp =>
    let r := isJSONResponse resp
    if r.1 = false then
      .error (.apiRequestError "doPost" url (nonJSONMsg resp.contentType r.2))
    else if resp.statusCode ≠ 200 ∧ resp.statusCode ≠ 201 then
      .error (DecodeAPIError body resp)
    else
      .ok resp

/-- doPatch (client.go): requires 200, else classifies with the request
body. -/
def doPatch (url : String) (body : Option String) (transport : Except String HttpResponse) :
    Except APIError HttpResponse :=
  match transport with
  | .error cause => .error (.apiRequestError "do" url cause)
  | .ok resp =>
    let r := isJSONResponse resp
    if r.1 = false then
      .error (.apiRequestError "doPatch" url (nonJSONMsg resp.contentType r.2))
    else if resp.statusCode ≠ 200 then
      .error (DecodeAPIError body resp)
    else
      .ok resp

/-- doPut (client.go): requires 200, else classifies with the request
body. -/
def doPut (url : String) (body : Option String) (transport : Except String HttpResponse) :
    Except APIError HttpResponse :=
  match transport with
  | .error cause => .error (.apiRequestError "do" url cause)
  | .ok resp =>
    let r := isJSONResponse resp
    if r.1 = false then
      .error (.apiRequestError "doPut" url (nonJSONMsg resp.contentType r.2))
    else if resp.statusCode ≠ 200 then
      .error (DecodeAPIError body resp)
    else
      .ok resp

/-- doDelete (client.go): accepts 200 or 204, else classifies with a nil
request body. -/
def doDelete (url : String) (transport : Except String HttpResponse) :
    Except APIError HttpResponse :=
  match transport with
  | .error cause => .error (.apiRequestError "do" url cause)
  | .ok resp =>
    let r := isJSONResponse resp
    if r.1 = false then
      .error (.apiRequestError "doDelete" url (nonJSONMsg resp.contentType r.2))
    else if resp.statusCode ≠ 200 ∧ resp.statusCode ≠ 204 then
      .error (DecodeAPIError none resp)
    else
      .ok resp

/-- BudgetThreshold (types.go); dollarsSpent is a Go float64, modelled as an
integer (no claim computes with it). -/
structure BudgetThreshold where
  dollarsSpent : Int
  action : String
deriving Repr, DecidableEq

/-- DurationThreshold (types.go); hoursRemaining is a Go float64, modelled
as an integer. -/
structure DurationThreshold where
  hoursRemaining : Int
  action : String
deriving Repr, DecidableEq

/-- MetaData (types.go); schemaVersion is a Go json.Number, modelled as an
integer. -/
structure MetaData where
  createdTime : String
  lastEditTime : String
  schemaVersion : Int
deriving Repr, DecidableEq

/-- Lease (types.go); Go float64 fields are modelled as integers (no claim
computes with them). -/
structure Lease where
  userEmail : String
  uuid : String
  status : String
  originalLeaseTemplateUuid : String
  originalLeaseTemplateName : String
  leaseDurationInHours : Int
  maxSpend : Int
  budgetThresholds : List BudgetThreshold
  durationThresholds : List DurationThreshold
  comments : String
  awsAccountId : String
  leaseId : String
  startDate : String
  expirationDate : String
  endDate : String
  totalCostAccrued : Int
  meta : MetaData
deriving Repr, DecidableEq

/-- The zero value of Lease, as Go initialises it. -/
def zeroLease : Lease :=
  { userEmail := "", uuid := "", status := "", originalLeaseTemplateUuid := ""
    originalLeaseTemplateName := "", leaseDurationInHours := 0, maxSpend := 0
    budgetThresholds := [], durationThresholds := [], comments := ""
    awsAccountId := "", leaseId := "", startDate := "", expirationDate := ""
    endDate := "", totalCostAccrued := 0, meta := ⟨"", "", 0⟩ }

/-- Decode one element of a budgetThresholds array. -/
def decodeBudgetThreshold : JsonVal → Option BudgetThreshold
  | .null => some ⟨0, ""⟩
  | .obj fs => do
    let d ← decodeIntField fs "dollarsSpent"
    let a ← decodeStrField fs "action"
    pure ⟨d, a⟩
  | _ => none

/-- Decode one element of a durationThresholds array. -/
def decodeDurationThreshold : JsonVal → Option DurationThreshold
  | .null => some ⟨0, ""⟩
  | .obj fs => do
    let h ← decodeIntField fs "hoursRemaining"
    let a ← decodeStrField fs "action"
    pure ⟨h, a⟩
  | _ => none

/-- Decode a struct field holding a slice, given an element decoder. -/
def decodeListField {α : Type} (dec : JsonVal → Option α)
    (fields : List (String × JsonVal)) (key : String) : Option (List α) :=
  match jlookup fields key with
  | none => some []
  | some .null => some []
  | some (.arr xs) => xs.mapM dec
  | some _ => none

/-- Decode the meta field into MetaData. -/
def decodeMetaData : JsonVal → Option MetaData
  | .null => some ⟨"", "", 0⟩
  | .obj fs => do
    let c ← decodeStrField fs "createdTime"
    let l ← decodeStrField fs "lastEditTime"
    let v ← decodeIntField fs "schemaVersion"
    pure ⟨c, l, v⟩
  | _ => none

/-- Decode the meta struct field of Lease. -/
def decodeMetaField (fs : List (String × JsonVal)) : Option MetaData :=
  match jlookup fs "meta" with
  | none => some ⟨"", "", 0⟩
  | some v => decodeMetaData v

/-- First group of Lease fields (userEmail through originalLeaseTemplateName),
decoded into an accumulating Lease value. -/
def decodeLease1 (fs : List (String × JsonVal)) (l : Lease) : Option Lease :=
  (decodeStrField fs "userEmail").bind fun userEmail =>
  (decodeStrField fs "uuid").bind fun uuid =>
  (decodeStrField fs "status").bind fun status =>
  (decodeStrField fs "originalLeaseTemplateUuid").bind fun otu =>
  (decodeStrField fs "originalLeaseTemplateName").bind fun otn =>
  some { l with
    userEmail := userEmail
    uuid := uuid
    status := status
    originalLeaseTemplateUuid := otu
    originalLeaseTemplateName := otn }

/-- Second group of Lease fields (leaseDurationInHours through
durationThresholds). -/
def decodeLease2 (fs : List (String × JsonVal)) (l : Lease) : Option Lease :=
  (decodeIntField fs "leaseDurationInHours").bind fun ldh =>
  (decodeIntField fs "maxSpend").bind fun ms =>
  (decodeListField decodeBudgetThreshold fs "budgetThresholds").bind fun bts =>
  (decodeListField decodeDurationThreshold fs "durationThresholds").bind fun dts =>
  some { l with
    leaseDurationInHours := ldh
    maxSpend := ms
    budgetThresholds := bts
    durationThresholds := dts }

/-- Third group of Lease fields (comments through startDate). -/
def decodeLease3 (fs : List (String × JsonVal)) (l : Lease) : Option Lease :=
  (decodeStrField fs "comments").bind fun comments =>
  (decodeStrField fs "awsAccountId").bind fun acct =>
  (decodeStrField fs "leaseId").bind fun lid =>
  (decodeStrField fs "startDate").bind fun sd =>
  some { l with
    comments := comments
    awsAccountId := acct
    leaseId := lid
    startDate := sd }

/-- Fourth group of Lease fields (expirationDate through meta). -/
def decodeLease4 (fs : List (String × JsonVal)) (l : Lease) : Option Lease :=
  (decodeStrField fs "expirationDate").bind fun ed =>
  (decodeStrField fs "endDate").bind fun endd =>
  (decodeIntField fs "totalCostAccrued").bind fun tca =>
  (decodeMetaField fs).bind fun meta =>
  some { l with
    expirationDate := ed
    endDate := endd
    totalCostAccrued := tca
    meta := meta }

/-- Go json.Unmarshal of a JSON value into the Lease struct; the tagged
fields are decoded group by group (grouping is only structuring of the
embedding, the decode of each field is unchanged). -/
def decodeLease : JsonVal → Option Lease
  | .null => some zeroLease
  | .obj fs =>
    (decodeLease1 fs zeroLease).bind fun l =>
    (decodeLease2 fs l).bind fun l =>
    (decodeLease3 fs l).bind fun l =>
    decodeLease4 fs l
  | _ => none

/-- Decode the anonymous success wrapper struct with a Lease data field
used by the lease operations. -/
def decodeLeaseWrapper : JsonVal → Option (String × Lease)
  | .null => some ("", zeroLease)
  | .obj fs => do
    let s ← decodeStrField fs "status"
    let d ← match jlookup fs "data" with
      | none => some zeroLease
      | some v => decodeLease v
    pure (s, d)
  | _ => none

/-- The UTF-8 encoding of a single code point as a byte list. -/
def utf8EncodeChar (n : Nat) : List Nat :=
  if n < 0x80 then [n]
  else if n < 0x800 then [0xC0 + n / 64, 0x80 + n % 64]
  else if n < 0x10000 then [0xE0 + n / 4096, 0x80 + (n / 64) % 64, 0x80 + n % 64]
  else [0xF0 + n / 262144, 0x80 + (n / 4096) % 64, 0x80 + (n / 64) % 64, 0x80 + n % 64]

/-- The UTF-8 bytes of a string (a Go string is exactly this byte list). -/
def utf8Bytes (s : String) : List Nat :=
  (s.data.map (fun c => utf8EncodeChar c.toNat)).flatten

/-- The standard base64 alphabet (RFC 4648), used by Go
base64.StdEncoding. -/
def b64Alphabet : List Char :=
  "ABCDEFGHIJKLMNOPQRSTUVWXYZabcdefghijklmnopqrstuvwxyz0123456789+/".data

/-- The base64 digit for a 6-bit value. -/
def b64Char (n : Nat) : Char := b64Alphabet.getD n 'A'

/-- Go base64.StdEncoding.EncodeToString on a byte list: 3-byte groups
become 4 digits, with = padding for the final partial group. -/
def b64EncodeList : List Nat → List Char
  | [] => []
  | [b1] => [b64Char (b1 / 4), b64Char (b1 % 4 * 16), '=', '=']
  | [b1, b2] =>
    [b64Char (b1 / 4), b64Char (b1 % 4 * 16 + b2 / 16), b64Char (b2 % 16 * 4), '=']
  | b1 :: b2 :: b3 :: rest =>
    b64Char (b1 / 4) :: b64Char (b1 % 4 * 16 + b2 / 16) ::
      b64Char (b2 % 16 * 4 + b3 / 64) :: b64Char (b3 % 64) :: b64EncodeList rest

/-- A lower-case hexadecimal digit. -/
def hexDigit (n : Nat) : Char := "0123456789abcdef".data.getD n '0'

/-- Go encoding/json escaping of one character inside a string literal
(HTML escaping enabled, as json.Marshal does by default). -/
def jsonEscapeChar (c : Char) : List Char :=
  if c = '"' then ['\\', '"']
  else if c = '\\' then ['\\', '\\']
  else if c = '\n' then ['\\', 'n']
  else if c = '\r' then ['\\', 'r']
  else if c = '\t' then ['\\', 't']
  else if c.toNat < 0x20 then
    ['\\', 'u', '0', '0', hexDigit (c.toNat / 16), hexDigit (c.toNat % 16)]
  else if c = '<' then ['\\', 'u', '0', '0', '3', 'c']
  else if c = '>' then ['\\', 'u', '0', '0', '3', 'e']
  else if c = '&' then ['\\', 'u', '0', '0', '2', '6']
  else if c.toNat = 0x2028 then ['\\', 'u', '2', '0', '2', '8']
  else if c.toNat = 0x2029 then ['\\', 'u', '2', '0', '2', '9']
  else [c]

/-- Go encoding/json rendering of a string value, quotes included. -/
def jsonQuote (s : String) : List Char :=
  '"' :: (s.data.map jsonEscapeChar).flatten ++ ['"']

/-- Go json.Marshal of the map with keys userEmail and uuid built by the
lease-creation operations; map keys are emitted in sorted order
(userEmail before uuid). -/
def marshalLeaseIdComponents (userEmail uuid : String) : String :=
  String.mk (Char.ofNat 123 :: jsonQuote "userEmail" ++ ':' :: jsonQuote userEmail
    ++ ',' :: jsonQuote "uuid" ++ ':' :: jsonQuote uuid ++ [Char.ofNat 125])

/-- The derived LeaseId computed by CreateLease and CreateLeaseAsUser:
base64 of the canonical JSON object with the response's userEmail and
uuid. -/
def deriveLeaseId (userEmail uuid : String) : String :=
  String.mk (b64EncodeList (utf8Bytes (marshalLeaseIdComponents userEmail uuid)))

/-- CreateLeaseRequest (types.go). -/
structure CreateLeaseRequest where
  leaseTemplateUUID : String
  comments : String
deriving Repr, DecidableEq

/-- The POST body CreateLease and CreateLeaseAsUser marshal: a map with
leaseTemplateUuid and, when non-empty, comments; Go map keys are emitted
in sorted order (comments before leaseTemplateUuid). -/
def createLeaseBody (r : CreateLeaseRequest) : String :=
  if r.comments = "" then
    String.mk (Char.ofNat 123 :: jsonQuote "leaseTemplateUuid"
      ++ ':' :: jsonQuote r.leaseTemplateUUID ++ [Char.ofNat 125])
  else
    String.mk (Char.ofNat 123 :: jsonQuote "comments" ++ ':' :: jsonQuote r.comments
      ++ ',' :: jsonQuote "leaseTemplateUuid" ++ ':' :: jsonQuote r.leaseTemplateUUID
      ++ [Char.ofNat 125])

/-- CreateLeaseResponse (types.go). -/
structure CreateLeaseResponse where
  lease : Lease
deriving Repr, DecidableEq

/-- UpdateLeaseResponse (types.go). -/
structure UpdateLeaseResponse where
  lease : Lease
deriving Repr, DecidableEq

/-- GetLeaseByIDResponse (types.go). -/
structure GetLeaseByIDResponse where
  lease : Lease
deriving Repr, DecidableEq

/-- CreateLease (client.go): validate, POST /leases, unwrap the success
envelope, then overwrite the derived LeaseId field. -/
def CreateLease (req : Option CreateLeaseRequest) (baseURL : String)
    (transport : Except String HttpResponse) : Except APIError CreateLeaseResponse :=
  match req with
  | none => .error (.apiRequestError "param" "" "LeaseTemplateUUID is required")
  | some r =>
    if r.leaseTemplateUUID = "" then
      .error (.apiRequestError "param" "" "LeaseTemplateUUID is required")
    else
      match doPost (baseURL ++ "/leases") (some (createLeaseBody r)) transport with
      | .error e => .error e
      | .ok resp =>
        match resp.bodyJson.bind decodeLeaseWrapper with
        | none => .error (.jsonDecodingError "decode")
        | some (_, d) =>
          .ok ⟨{ d with leaseId := deriveLeaseId d.userEmail d.uuid }⟩

/-- CreateLeaseAsUser (client.go): validate, generate a user-scoped token
(credential generation is abstracted away; it does not affect the decoded
result), POST /leases through a throwaway client with no isJSONResponse
check, accept 200/201, unwrap, then overwrite the derived LeaseId field. -/
def CreateLeaseAsUser (req : Option CreateLeaseRequest) (baseURL : String)
    (transport : Except String HttpResponse) : Except APIError CreateLeaseResponse :=
  match req with
  | none => .error (.apiRequestError "param" "" "LeaseTemplateUUID is required")
  | some r =>
    if r.leaseTemplateUUID = "" then
      .error (.apiRequestError "param" "" "LeaseTemplateUUID is required")
    else
      match transport with
      | .error cause => .error (.apiRequestError "do" (baseURL ++ "/leases") cause)
      | .ok resp =>
        if resp.statusCode ≠ 200 ∧ resp.statusCode ≠ 201 then
          .error (DecodeAPIError (some (createLeaseBody r)) resp)
        else
          match resp.bodyJson.bind decodeLeaseWrapper with
          | none => .error (.jsonDecodingError "decode")
          | some (_, d) =>
            .ok ⟨{ d with leaseId := deriveLeaseId d.userEmail d.uuid }⟩

/-- UpdateLeaseRequest (types.go); the optional pointer fields are
Options. -/
structure UpdateLeaseRequest where
  leaseID : String
  maxSpend : Option Int
  budgetThresholds : Option (List BudgetThreshold)
  expirationDate : Option String
  durationThresholds : Option (List DurationThreshold)
deriving Repr, DecidableEq

/-- Comma-join of rendered JSON members. -/
def joinComma : List (List Char) → List Char
  | [] => []
  | [x] => x
  | x :: y :: xs => x ++ ',' :: joinComma (y :: xs)

/-- Go json.Marshal of a BudgetThreshold value. -/
def marshalBudgetThreshold (b : BudgetThreshold) : List Char :=
  Char.ofNat 123 :: jsonQuote "dollarsSpent" ++ ':' :: (toString b.dollarsSpent).data
    ++ ',' :: jsonQuote "action" ++ ':' :: jsonQuote b.action ++ [Char.ofNat 125]

/-- Go json.Marshal of a DurationThreshold value. -/
def marshalDurationThreshold (d : DurationThreshold) : List Char :=
  Char.ofNat 123 :: jsonQuote "hoursRemaining" ++ ':' :: (toString d.hoursRemaining).data
    ++ ',' :: jsonQuote "action" ++ ':' :: jsonQuote d.action ++ [Char.ofNat 125]

/-- Go json.Marshal of a JSON array from rendered elements. -/
def marshalArr (xs : List (List Char)) : List Char :=
  '[' :: joinComma xs ++ [']']

/-- Go json.Marshal of an UpdateLeaseRequest: struct fields in declaration
order, the untagged LeaseID under its field name, omitempty pointer fields
skipped when nil. -/
def marshalUpdateLeaseRequest (r : UpdateLeaseRequest) : String :=
  let fields : List (List Char) :=
    [jsonQuote "LeaseID" ++ ':' :: jsonQuote r.leaseID]
    ++ (match r.maxSpend with
        | none => []
        | some n => [jsonQuote "maxSpend" ++ ':' :: (toString n).data])
    ++ (match r.budgetThresholds with
        | none => []
        | some l => [jsonQuote "budgetThresholds"
            ++ ':' :: marshalArr (l.map marshalBudgetThreshold)])
    ++ (match r.expirationDate with
        | none => []
        | some s => [jsonQuote "expirationDate" ++ ':' :: jsonQuote s])
    ++ (match r.durationThresholds with
        | none => []
        | some l => [jsonQuote "durationThresholds"
            ++ ':' :: marshalArr (l.map marshalDurationThreshold)])
  String.mk (Char.ofNat 123 :: joinComma fields ++ [Char.ofNat 125])

/-- UpdateLease (client.go): validate, PATCH /leases/id, unwrap the success
envelope; the decoded Lease is returned as-is, without recomputing
LeaseId. -/
def UpdateLease (req : Option UpdateLeaseRequest) (baseURL : String)
    (transport : Except String HttpResponse) : Except APIError UpdateLeaseResponse :=
  match req with
  | none => .error (.apiRequestError "param" "" "LeaseID is required")
  | some r =>
    if r.leaseID = "" then
      .error (.apiRequestError "param" "" "LeaseID is required")
    else
      match doPatch (baseURL ++ "/leases/" ++ r.leaseID)
          (some (marshalUpdateLeaseRequest r)) transport with
      | .error e => .error e
      | .ok resp =>
        match resp.bodyJson.bind decodeLeaseWrapper with
        | none => .error (.jsonDecodingError "decode")
        | some (_, d) => .ok ⟨d⟩

/-- GetLeaseByIDRequest (types.go). -/
structure GetLeaseByIDRequest where
  leaseID : String
deriving Repr, DecidableEq

/-- GetLeaseByID (client.go): validate, GET /leases/id, unwrap the success
envelope; the decoded Lease passes through unchanged. -/
def GetLeaseByID (req : Option GetLeaseByIDRequest) (baseURL : String)
    (transport : Except String HttpResponse) : Except APIError GetLeaseByIDResponse :=
  match req with
  | none => .error (.apiRequestError "param" "" "LeaseID is required")
  | some r =>
    if r.leaseID = "" then
      .error (.apiRequestError "param" "" "LeaseID is required")
    else
      match doGet (baseURL ++ "/leases/" ++ r.leaseID) transport with
      | .error e => .error e
      | .ok resp =>
        match resp.bodyJson.bind decodeLeaseWrapper with
        | none => .error (.jsonDecodingError "decode")
        | some (_, d) => .ok ⟨d⟩

/-- Review action literals (types.go). -/
def ReviewApprove : String := "Approve"

/-- Review action literal Deny (types.go). -/
def ReviewDeny : String := "Deny"

/-- ReviewLeaseRequest (types.go). -/
structure ReviewLeaseRequest where
  leaseID : String
  action : String
deriving Repr, DecidableEq

/-- The POST body of ReviewLease: json.Marshal of the single-key action
map. -/
def reviewLeaseBody (r : ReviewLeaseRequest) : String :=
  String.mk (Char.ofNat 123 :: jsonQuote "action" ++ ':' :: jsonQuote r.action
    ++ [Char.ofNat 125])

/-- ReviewLease (client.go): a nil request, empty LeaseID, or an Action
other than Approve/Deny fails with the parameter-validation error before
any network activity; otherwise POST /leases/id/review. Go returns only an
error, so the result is an Option APIError (none on success). -/
def ReviewLease (req : Option ReviewLeaseRequest) (baseURL : String)
    (transport : Except String HttpResponse) : Option APIError :=
  match req with
  | none => some (.apiRequestError "param" "" "LeaseID and Action are required")
  | some r =>
    if r.leaseID = "" ∨ (r.action ≠ ReviewApprove ∧ r.action ≠ ReviewDeny) then
      some (.apiRequestError "param" "" "LeaseID and Action are required")
    else
      match doPost (baseURL ++ "/leases/" ++ r.leaseID ++ "/review")
          (some (reviewLeaseBody r)) transport with
      | .error e => some e
      | .ok _ => none

/-- A Go call result that distinguishes a nil-pointer panic from returned
values and returned errors. -/
inductive Outcome (α : Type) where
  | ok (a : α)
  | err (e : APIError)
  | nilPanic
deriving Repr

/-- Decode the anonymous success wrapper of GetConfigurations; the typing
of the GlobalConfiguration payload is not observed by any claim, so the
data field is returned as parsed JSON. -/
def decodeConfigWrapper : JsonVal → Option (String × JsonVal)
  | .null => some ("", .null)
  | .obj fs =>
    (decodeStrField fs "status").bind fun s =>
    some (s, (jlookup fs "data").getD .null)
  | _ => none

/-- GetConfigurations (client.go): after the doGet call the source assigns
err = nil before checking err, so a doGet failure is silently discarded and
the nil response is dereferenced by resp.Body.Close(), a Go nil-pointer
panic, modelled as Outcome.nilPanic. -/
def GetConfigurations (baseURL : String) (transport : Except String HttpResponse) :
    Outcome JsonVal :=
  match doGet (baseURL ++ "/configurations") transport with
  | .error _ => .nilPanic
  | .ok resp =>
    match resp.bodyJson.bind decodeConfigWrapper with
    | none => .err (.jsonDecodingError "decode")
    | some (_, d) => .ok d

/-- Result of running the pagination loop: the drained items, the fetch
error, or fuel exhaustion (the Go loop is unbounded and can diverge; fuel
only bounds the unrolling of the model). -/
inductive PagResult (T : Type) where
  | ok (items : List T)
  | err (e : APIError)
  | fuelOut
deriving Repr

/-- GetLeasesRequest (types.go). -/
structure GetLeasesRequest where
  pageIdentifier : String
  pageSize : String
  userEmail : String
deriving Repr, DecidableEq

/-- SetPageIdentifier of GetLeasesRequest (types.go). -/
def setPageIdentifier (r : GetLeasesRequest) (next : String) : GetLeasesRequest :=
  { r with pageIdentifier := next }

/-- paginateAll (client.go): repeatedly invoke the injected fetch function,
append the returned items, stop on an empty next-page identifier, propagate
an error immediately, and otherwise write the identifier into the request
and loop. The injected Go closure may be stateful, so the fetch function
also receives the 0-based call index; fuel makes the unbounded Go loop a
total function, idx and acc start at 0 and []. -/
def paginateAll {T R : Type} (setPage : R → String → R)
    (fetchPage : Nat → R → Except APIError (List T × String)) :
    Nat → Nat → R → List T → PagResult T
  | 0, _, _, _ => .fuelOut
  | fuel + 1, idx, req, acc =>
    match fetchPage idx req with
    | .error e => .err e
    | .ok (items, nextPage) =>
      let acc2 := acc ++ items
      if nextPage = "" then .ok acc2
      else paginateAll setPage fetchPage fuel (idx + 1) (setPage req nextPage) acc2

/-- C4 (refuting the claim on the code): for every base URL and every
transport-level failure cause, GetConfigurations neither returns the
transport error nor any typed error: the source clears err with an
err = nil assignment right after doGet, so the nil response is dereferenced
and the call panics. -/
theorem getConfigurations_transport_failure_panics
    (baseURL : String) (cause : String) :
    GetConfigurations baseURL (.error cause) = .nilPanic := rfl

/-- C10: for every ReviewLeaseRequest whose Action is neither Approve nor
Deny — as well as for a nil request or an empty LeaseID — ReviewLease
returns the parameter-validation APIRequestError; the transport is
universally quantified and unused, so no network call is made. -/
theorem reviewLease_validates_action (req : ReviewLeaseRequest) (baseURL : String)
    (transport : Except String HttpResponse)
    (h : req.action ≠ ReviewApprove ∧ req.action ≠ ReviewDeny) :
    ReviewLease (some req) baseURL transport =
      some (.apiRequestError "param" "" "LeaseID and Action are required")
    ∧ ReviewLease none baseURL transport =
      some (.apiRequestError "param" "" "LeaseID and Action are required")
    ∧ (∀ r2 : ReviewLeaseRequest, r2.leaseID = "" →
      ReviewLease (some r2) baseURL transport =
        some (.apiRequestError "param" "" "LeaseID and Action are required")) := by
  refine ⟨?_, rfl, ?_⟩
  · simp [ReviewLease, h.1, h.2]
  · intro r2 h2
    simp [ReviewLease, h2]

theorem reviewLease_validates_action_witness :
    ReviewLease (some ⟨"lease-1", "Reject"⟩) "https://isb.example.com"
        (.error "unused") =
      some (.apiRequestError "param" "" "LeaseID and Action are required") :=
  (reviewLease_validates_action ⟨"lease-1", "Reject"⟩ "https://isb.example.com"
    (.error "unused") (by decide)).1

/-- Success envelope carrying a Lease whose server-side leaseId field is a
stale value, used by the C3 counterexample and witness. -/
def respLeaseOk : HttpResponse :=
  { statusCode := 200
    contentType := "application/json"
    bodyRaw := "\x7b\"status\":\"success\",\"data\":\x7b\"userEmail\":\"user@example.com\",\"uuid\":\"lease123\",\"leaseId\":\"stale-server-value\"\x7d\x7d"
    bodyJson := some (.obj [("status", .str "success"),
      ("data", .obj [("userEmail", .str "user@example.com"),
        ("uuid", .str "lease123"), ("leaseId", .str "stale-server-value")])])
    reqPath := "/leases/abc" }

/-- C3 counterexample: UpdateLease does not recompute the derived LeaseId;
it returns the server-provided leaseId unchanged, which differs from the
base64 derivation the claim requires for UpdateLease. -/
theorem updateLease_leaseId_counterexample :
    (UpdateLease (some ⟨"abc", none, none, none, none⟩) "https://isb.example.com"
        (.ok respLeaseOk)).map (fun r => r.lease.leaseId) = .ok "stale-server-value"
    ∧ "stale-server-value" ≠ deriveLeaseId "user@example.com" "lease123" := by
  exact ⟨rfl, by decide⟩

/-- C3 (amended): CreateLease and CreateLeaseAsUser overwrite the returned
Lease's LeaseId with the base64 encoding of the canonical JSON object built
from the response's userEmail and uuid; UpdateLease and GetLeaseByID pass
the decoded Lease through unchanged. -/
theorem leaseId_derived_on_create_only
    (r : CreateLeaseRequest) (hreq : r.leaseTemplateUUID ≠ "")
    (baseURL : String) (resp : HttpResponse) (st : String) (d : Lease)
    (hw : resp.bodyJson.bind decodeLeaseWrapper = some (st, d))
    (hjson : (isJSONResponse resp).1 = true) (hsc : resp.statusCode = 200) :
    CreateLease (some r) baseURL (.ok resp) =
      .ok ⟨{ d with leaseId := deriveLeaseId d.userEmail d.uuid }⟩
    ∧ CreateLeaseAsUser (some r) baseURL (.ok resp) =
      .ok ⟨{ d with leaseId := deriveLeaseId d.userEmail d.uuid }⟩
    ∧ (∀ ur : UpdateLeaseRequest, ur.leaseID ≠ "" →
      UpdateLease (some ur) baseURL (.ok resp) = .ok ⟨d⟩)
    ∧ (∀ gr : GetLeaseByIDRequest, gr.leaseID ≠ "" →
      GetLeaseByID (some gr) baseURL (.ok resp) = .ok ⟨d⟩) := by
  refine ⟨?_, ?_, ?_, ?_⟩
  · simp [CreateLease, doPost, hreq, hjson, hsc, hw]
  · simp [CreateLeaseAsUser, hreq, hsc, hw]
  · intro ur h2
    simp [UpdateLease, doPatch, h2, hjson, hsc, hw]
  · intro gr h2
    simp [GetLeaseByID, doGet, h2, hjson, hsc, hw]

/-- The Lease decoded from respLeaseOk. -/
def leaseFromRespOk : Lease :=
  { zeroLease with
    userEmail := "user@example.com"
    uuid := "lease123"
    leaseId := "stale-server-value" }

theorem leaseId_derived_on_create_only_witness :
    CreateLease (some ⟨"tpl", ""⟩) "https://isb.example.com" (.ok respLeaseOk) =
      .ok ⟨{ leaseFromRespOk with
        leaseId := deriveLeaseId "user@example.com" "lease123" }⟩ :=
  (leaseId_derived_on_create_only ⟨"tpl", ""⟩ (by decide) "https://isb.example.com"
    respLeaseOk "success" leaseFromRespOk (by rfl) (by decide) rfl).1

/-- When the body is non-empty and the declared content type does not
contain application/json, isJSONResponse reports false with an empty body
string. -/
theorem isJSONResponse_nonjson (resp : HttpResponse)
    (hbody : resp.bodyRaw ≠ "")
    (hct : strContains resp.contentType "application/json" = false) :
    isJSONResponse resp = (false, "") := by
  simp [isJSONResponse, hbody, hct]

/-- A 500 response with a text/html body, used by the C7 counterexample
and witness. -/
def respHtml500 : HttpResponse :=
  { statusCode := 500
    contentType := "text/html"
    bodyRaw := "<html>oops</html>"
    bodyJson := none
    reqPath := "/leases" }

/-- True exactly for the transport error constructor APIRequestError. -/
def isApiRequestError : APIError → Bool
  | .apiRequestError _ _ _ => true
  | _ => false

/-- C7 counterexample: CreateLeaseAsUser performs no non-JSON content-type
check at all — a 500 text/html response is routed to the error classifier,
producing the generic APIResponseError rather than a Transport error — and,
on the shared verb helpers, the transport error raised for a non-JSON
response carries an empty body component, not the raw body text. -/
theorem createLeaseAsUser_nonJSON_counterexample :
    CreateLeaseAsUser (some ⟨"tpl", ""⟩) "https://isb.example.com"
        (.ok respHtml500) =
      .error (.apiResponseError 500 "<html>oops</html>" "")
    ∧ isApiRequestError (.apiResponseError 500 "<html>oops</html>" "") = false
    ∧ doGet "https://isb.example.com/leases" (.ok respHtml500) =
      .error (.apiRequestError "doGet" "https://isb.example.com/leases"
        "non-JSON response (text/html): ")
    ∧ strContains "non-JSON response (text/html): " "<html>oops</html>" = false := by
  exact ⟨rfl, rfl, rfl, by decide⟩

/-- C7 (amended): on the shared verb helpers doGet, doPost, doPatch, doPut
and doDelete, a response with a non-empty body whose declared content type
does not contain application/json yields the Transport APIRequestError
carrying the declared content type (the body component of the message is
empty), for every status code — the check precedes the status-code
branching; CreateLeaseAsUser performs no such check and routes its non-2xx
responses directly to the error classifier. -/
theorem nonJSON_check_before_status (url : String) (resp : HttpResponse)
    (hbody : resp.bodyRaw ≠ "")
    (hct : strContains resp.contentType "application/json" = false) :
    doGet url (.ok resp) =
      .error (.apiRequestError "doGet" url (nonJSONMsg resp.contentType ""))
    ∧ (∀ body, doPost url body (.ok resp) =
      .error (.apiRequestError "doPost" url (nonJSONMsg resp.contentType "")))
    ∧ (∀ body, doPatch url body (.ok resp) =
      .error (.apiRequestError "doPatch" url (nonJSONMsg resp.contentType "")))
    ∧ (∀ body, doPut url body (.ok resp) =
      .error (.apiRequestError "doPut" url (nonJSONMsg resp.contentType "")))
    ∧ doDelete url (.ok resp) =
      .error (.apiRequestError "doDelete" url (nonJSONMsg resp.contentType ""))
    ∧ (∀ r : CreateLeaseRequest, r.leaseTemplateUUID ≠ "" →
        resp.statusCode ≠ 200 → resp.statusCode ≠ 201 →
      CreateLeaseAsUser (some r) url (.ok resp) =
        .error (DecodeAPIError (some (createLeaseBody r)) resp)) := by
  have hj := isJSONResponse_nonjson resp hbody hct
  refine ⟨?_, ?_, ?_, ?_, ?_, ?_⟩
  · simp [doGet, hj]
  · intro body; simp [doPost, hj]
  · intro body; simp [doPatch, hj]
  · intro body; simp [doPut, hj]
  · simp [doDelete, hj]
  · intro r h1 h2 h3
    simp [CreateLeaseAsUser, h1, h2, h3]

theorem nonJSON_check_before_status_witness :
    doGet "https://isb.example.com/leases" (.ok respHtml500) =
      .error (.apiRequestError "doGet" "https://isb.example.com/leases"
        (nonJSONMsg "text/html" "")) :=
  (nonJSON_check_before_status "https://isb.example.com/leases" respHtml500
    (by decide) (by decide)).1

/-- Concatenation of the first n pages in server order. -/
def concatPages {T : Type} (pages : Nat → List T) (n : Nat) : List T :=
  ((List.range n).map pages).flatten

theorem paginateAll_drains_aux {T : Type}
    (pages : Nat → List T) (cursors : Nat → String)
    (fetchPage : Nat → GetLeasesRequest → Except APIError (List T × String)) :
    ∀ (n fuel j : Nat) (req : GetLeasesRequest) (acc : List T),
      0 < n → n ≤ fuel →
      (∀ k, k + 1 < n → cursors (j + k) ≠ "") →
      cursors (j + n - 1) = "" →
      fetchPage j req = .ok (pages j, cursors j) →
      (∀ k r, 0 < k → k < n → r.pageIdentifier = cursors (j + k - 1) →
        fetchPage (j + k) r = .ok (pages (j + k), cursors (j + k))) →
      paginateAll setPageIdentifier fetchPage fuel j req acc =
        .ok (acc ++ ((List.range n).map (fun k => pages (j + k))).flatten) := by
  intro n
  induction n with
  | zero => intro fuel j req acc h0; exact absurd h0 (by omega)
  | succ m ih =>
    intro fuel j req acc _ hfuel hcur hlast h1 hrest
    obtain ⟨f, rfl⟩ : ∃ f, fuel = f + 1 := ⟨fuel - 1, by omega⟩
    by_cases hm : m = 0
    · subst hm
      have hcj : cursors j = "" := by
        have : j + 1 - 1 = j := by omega
        rw [this] at hlast
        exact hlast
      simp only [paginateAll, h1, hcj]
      have hr1 : List.range 1 = [0] := rfl
      simp [hr1]
    · have hne : cursors j ≠ "" := by
        have := hcur 0 (by omega)
        simpa using this
      have hstep : paginateAll setPageIdentifier fetchPage (f + 1) j req acc =
          paginateAll setPageIdentifier fetchPage f (j + 1)
            (setPageIdentifier req (cursors j)) (acc ++ pages j) := by
        simp [paginateAll, h1, hne]
      rw [hstep]
      have hidx : ∀ k, j + 1 + k = j + (k + 1) := by intro k; omega
      have ihres := ih f (j + 1) (setPageIdentifier req (cursors j)) (acc ++ pages j)
        (by omega) (by omega)
        (by
          intro k hk
          rw [hidx k]
          exact hcur (k + 1) (by omega))
        (by
          have h2 : j + 1 + m - 1 = j + (m + 1) - 1 := by omega
          rw [h2]
          exact hlast)
        (by
          have := hrest 1 (setPageIdentifier req (cursors j)) (by omega) (by omega)
            (by simp [setPageIdentifier])
          simpa [hidx] using this)
        (by
          intro k r hk hkm hr
          have hr2 : r.pageIdentifier = cursors (j + (k + 1) - 1) := by
            have h3 : j + (k + 1) - 1 = j + 1 + k - 1 := by omega
            rw [h3]
            exact hr
          have := hrest (k + 1) r (by omega) (by omega) hr2
          simpa [hidx] using this)
      rw [ihres]
      congr 1
      rw [List.range_succ_eq_map]
      simp only [List.map_cons, List.map_map, List.flatten_cons, Nat.add_zero,
        List.append_assoc]
      congr 1
      congr 1
      apply congrArg List.flatten
      apply List.map_congr_left
      intro k _
      simp only [Function.comp]
      rw [hidx k]

/-- C5: for every sequence of N pages where the injected fetch returns
non-empty next-page cursors for calls 0..N-2 and an empty cursor on call
N-1, paginateAll returns the concatenation of all N pages in server order.
The fetch hypotheses constrain only the first N call indices, so the result
is reached with exactly N fetch invocations, and each call after the first
is only specified for requests whose page-cursor field equals the cursor
returned by the previous call — the conclusion is reachable only because
paginateAll writes that cursor into the request before refetching. -/
theorem paginateAll_drains {T : Type} (N : Nat)
    (pages : Nat → List T) (cursors : Nat → String)
    (fetchPage : Nat → GetLeasesRequest → Except APIError (List T × String))
    (req0 : GetLeasesRequest) (fuel : Nat)
    (hN : 0 < N) (hfuel : N ≤ fuel)
    (hcur : ∀ i, i + 1 < N → cursors i ≠ "")
    (hlast : cursors (N - 1) = "")
    (hfetch0 : fetchPage 0 req0 = .ok (pages 0, cursors 0))
    (hrest : ∀ i r, 0 < i → i < N → r.pageIdentifier = cursors (i - 1) →
      fetchPage i r = .ok (pages i, cursors i)) :
    paginateAll setPageIdentifier fetchPage fuel 0 req0 [] =
      .ok (concatPages pages N) := by
  have h := paginateAll_drains_aux pages cursors fetchPage N fuel 0 req0 [] hN hfuel
    (by intro k hk; simpa using hcur k hk)
    (by simpa using hlast)
    hfetch0
    (by
      intro k r hk hkN hr
      have := hrest k r hk hkN (by simpa using hr)
      simpa using this)
  simpa [concatPages] using h

/-- Fetch script for the C5 witness: two pages with one continuation
cursor. -/
def fetchTwoPages : Nat → GetLeasesRequest → Except APIError (List Nat × String) :=
  fun i _ => if i = 0 then .ok ([1, 2], "cursor-1") else .ok ([3], "")

theorem paginateAll_drains_witness :
    paginateAll setPageIdentifier fetchTwoPages 2 0 ⟨"", "", ""⟩ [] =
      .ok [1, 2, 3] := by
  have h := paginateAll_drains 2
    (fun i => if i = 0 then [1, 2] else [3])
    (fun i => if i = 0 then "cursor-1" else "")
    fetchTwoPages ⟨"", "", ""⟩ 2
    (by omega) (by omega)
    (by
      intro i hi
      have h0 : i = 0 := by omega
      subst h0
      simp)
    (by rfl)
    (by rfl)
    (by
      intro i r h1 h2 _
      have : i = 1 := by omega
      subst this
      rfl)
  simpa [concatPages] using h

theorem paginateAll_err_aux {T : Type}
    (pages : Nat → List T) (cursors : Nat → String) (e : APIError)
    (fetchPage : Nat → GetLeasesRequest → Except APIError (List T × String)) :
    ∀ (k fuel j : Nat) (req : GetLeasesRequest) (acc : List T),
      k < fuel →
      (∀ i, i < k → cursors (j + i) ≠ "") →
      (k = 0 → fetchPage j req = .error e) →
      (0 < k → fetchPage j req = .ok (pages j, cursors j)) →
      (∀ i r, 0 < i → i < k → r.pageIdentifier = cursors (j + i - 1) →
        fetchPage (j + i) r = .ok (pages (j + i), cursors (j + i))) →
      (∀ r, 0 < k → r.pageIdentifier = cursors (j + k - 1) →
        fetchPage (j + k) r = .error e) →
      paginateAll setPageIdentifier fetchPage fuel j req acc = .err e := by
  intro k
  induction k with
  | zero =>
    intro fuel j req acc hfuel _ herr0 _ _ _
    obtain ⟨f, rfl⟩ : ∃ f, fuel = f + 1 := ⟨fuel - 1, by omega⟩
    simp [paginateAll, herr0 rfl]
  | succ m ih =>
    intro fuel j req acc hfuel hcur herr0 hok hrest herrk
    obtain ⟨f, rfl⟩ : ∃ f, fuel = f + 1 := ⟨fuel - 1, by omega⟩
    have h1 : fetchPage j req = .ok (pages j, cursors j) := hok (by omega)
    have hne : cursors j ≠ "" := by
      have := hcur 0 (by omega)
      simpa using this
    have hstep : paginateAll setPageIdentifier fetchPage (f + 1) j req acc =
        paginateAll setPageIdentifier fetchPage f (j + 1)
          (setPageIdentifier req (cursors j)) (acc ++ pages j) := by
      simp [paginateAll, h1, hne]
    rw [hstep]
    have hidx : ∀ i, j + 1 + i = j + (i + 1) := by intro i; omega
    exact ih f (j + 1) (setPageIdentifier req (cursors j)) (acc ++ pages j)
      (by omega)
      (by
        intro i hi
        rw [hidx i]
        exact hcur (i + 1) (by omega))
      (by
        intro hm0
        subst hm0
        exact herrk (setPageIdentifier req (cursors j)) (by omega)
          (by simp [setPageIdentifier]))
      (by
        intro hm
        have := hrest 1 (setPageIdentifier req (cursors j)) (by omega) (by omega)
          (by simp [setPageIdentifier])
        simpa [hidx] using this)
      (by
        intro i r hi him hr
        have hr2 : r.pageIdentifier = cursors (j + (i + 1) - 1) := by
          have h3 : j + (i + 1) - 1 = j + 1 + i - 1 := by omega
          rw [h3]
          exact hr
        have := hrest (i + 1) r (by omega) (by omega) hr2
        simpa [hidx] using this)
      (by
        intro r hm hr
        have hr2 : r.pageIdentifier = cursors (j + (m + 1) - 1) := by
          have h3 : j + (m + 1) - 1 = j + 1 + m - 1 := by omega
          rw [h3]
          exact hr
        have := herrk r (by omega) hr2
        simpa [hidx] using this)

/-- C6: if the fetch at call index k fails with error e (after k earlier
pages returned with non-empty cursors), paginateAll returns exactly that
error: no accumulated items are returned, and the fetch function is
unconstrained at indices beyond k, so it is not invoked again. -/
theorem paginateAll_error_aborts {T : Type} (k : Nat)
    (pages : Nat → List T) (cursors : Nat → String) (e : APIError)
    (fetchPage : Nat → GetLeasesRequest → Except APIError (List T × String))
    (req0 : GetLeasesRequest) (fuel : Nat)
    (hfuel : k < fuel)
    (hcur : ∀ i, i < k → cursors i ≠ "")
    (herr0 : k = 0 → fetchPage 0 req0 = .error e)
    (hok : 0 < k → fetchPage 0 req0 = .ok (pages 0, cursors 0))
    (hrest : ∀ i r, 0 < i → i < k → r.pageIdentifier = cursors (i - 1) →
      fetchPage i r = .ok (pages i, cursors i))
    (herrk : ∀ r, 0 < k → r.pageIdentifier = cursors (k - 1) →
      fetchPage k r = .error e) :
    paginateAll setPageIdentifier fetchPage fuel 0 req0 [] = .err e := by
  exact paginateAll_err_aux pages cursors e fetchPage k fuel 0 req0 [] hfuel
    (by intro i hi; simpa using hcur i hi)
    herr0 hok
    (by
      intro i r hi hik hr
      have := hrest i r hi hik (by simpa using hr)
      simpa using this)
    (by
      intro r hk hr
      have := herrk r hk (by simpa using hr)
      simpa using this)

/-- Fetch script for the C6 witness: one good page, then a failing call. -/
def fetchThenFail : Nat → GetLeasesRequest → Except APIError (List Nat × String) :=
  fun i _ =>
    if i = 0 then .ok ([1, 2], "cursor-1")
    else .error (.jsonDecodingError "boom")

theorem paginateAll_error_aborts_witness :
    paginateAll setPageIdentifier fetchThenFail 5 0 ⟨"", "", ""⟩ [] =
      .err (.jsonDecodingError "boom") := by
  exact paginateAll_error_aborts 1
    (fun i => if i = 0 then [1, 2] else [])
    (fun i => if i = 0 then "cursor-1" else "")
    (.jsonDecodingError "boom") fetchThenFail ⟨"", "", ""⟩ 5
    (by omega)
    (by
      intro i hi
      have h0 : i = 0 := by omega
      subst h0
      simp)
    (by omega)
    (by intro _; rfl)
    (by intro i r h1 h2 _; omega)
    (by intro r _ _; rfl)

/-- GetAccountsRequest (types.go). -/
structure GetAccountsRequest where
  pageIdentifier : String
  pageSize : String
deriving Repr, DecidableEq

/-- BuildQuery of GetLeasesRequest (types.go): the non-empty fields are set
on the query values under their parameter names; a nil request produces
empty values. url.Values is modelled as a key/value list (each key is set
at most once here, so Set is an append). -/
def GetLeasesRequest.BuildQuery (r : Option GetLeasesRequest) : List (String × String) :=
  match r with
  | none => []
  | some r =>
    (if r.pageIdentifier ≠ "" then [("pageIdentifier", r.pageIdentifier)] else [])
    ++ (if r.pageSize ≠ "" then [("pageSize", r.pageSize)] else [])
    ++ (if r.userEmail ≠ "" then [("userEmail", r.userEmail)] else [])

/-- BuildQuery of GetAccountsRequest (types.go). -/
def GetAccountsRequest.BuildQuery (r : Option GetAccountsRequest) : List (String × String) :=
  match r with
  | none => []
  | some r =>
    (if r.pageIdentifier ≠ "" then [("pageIdentifier", r.pageIdentifier)] else [])
    ++ (if r.pageSize ≠ "" then [("pageSize", r.pageSize)] else [])

/-- Query-unreserved characters, by code point: A-Z, a-z, 0-9 and the four
marks Go's query escaper leaves unescaped. -/
def isUnreservedQueryChar (c : Char) : Bool :=
  (65 ≤ c.toNat ∧ c.toNat ≤ 90) ∨ (97 ≤ c.toNat ∧ c.toNat ≤ 122)
    ∨ (48 ≤ c.toNat ∧ c.toNat ≤ 57)
    ∨ c.toNat = 45 ∨ c.toNat = 95 ∨ c.toNat = 46 ∨ c.toNat = 126

/-- An upper-case hexadecimal digit, as Go's percent-escaper emits. -/
def hexDigitU (n : Nat) : Char := "0123456789ABCDEF".data.getD n '0'

/-- Percent-encoding of one byte. -/
def pctEncodeByte (b : Nat) : List Char := ['%', hexDigitU (b / 16), hexDigitU (b % 16)]

/-- Go url.QueryEscape of one character: unreserved characters stand as
themselves, space becomes +, anything else is percent-encoded byte by byte
of its UTF-8 form. -/
def queryEscapeChar (c : Char) : List Char :=
  if isUnreservedQueryChar c then [c]
  else if c = ' ' then ['+']
  else ((utf8EncodeChar c.toNat).map pctEncodeByte).flatten

/-- Go url.QueryEscape of a string. -/
def queryEscape (s : String) : List Char :=
  (s.data.map queryEscapeChar).flatten

/-- Lexicographic order on character lists, by code point (byte order on
ASCII, as Go compares strings). -/
def lexLe : List Char → List Char → Bool
  | [], _ => true
  | _ :: _, [] => false
  | a :: as, b :: bs =>
    if a.toNat < b.toNat then true
    else if b.toNat < a.toNat then false
    else lexLe as bs

/-- Lexicographic string order. -/
def strLeB (a b : String) : Bool := lexLe a.data b.data

/-- Insertion into a key-sorted key/value list. -/
def insertByKey (kv : String × String) : List (String × String) → List (String × String)
  | [] => [kv]
  | x :: xs => if strLeB kv.1 x.1 then kv :: x :: xs else x :: insertByKey kv xs

/-- Key-sorting of a key/value list (url.Values.Encode sorts its keys). -/
def sortByKey : List (String × String) → List (String × String)
  | [] => []
  | x :: xs => insertByKey x (sortByKey xs)

/-- Ampersand-join of rendered key=value members. -/
def joinAmp : List (List Char) → List Char
  | [] => []
  | [x] => x
  | x :: y :: xs => x ++ '&' :: joinAmp (y :: xs)

/-- Go url.Values.Encode: keys in sorted order, each member rendered as
escaped key, =, escaped value, members joined with ampersands. -/
def valuesEncode (q : List (String × String)) : List Char :=
  joinAmp ((sortByKey q).map (fun kv => queryEscape kv.1 ++ '=' :: queryEscape kv.2))

/-- The numeric value of a hexadecimal digit (Go ishex/unhex). -/
def hexVal (c : Char) : Option Nat :=
  if 48 ≤ c.toNat ∧ c.toNat ≤ 57 then some (c.toNat - 48)
  else if 97 ≤ c.toNat ∧ c.toNat ≤ 102 then some (c.toNat - 87)
  else if 65 ≤ c.toNat ∧ c.toNat ≤ 70 then some (c.toNat - 55)
  else none

/-- One percent escape: two hexadecimal digits and the remaining
characters. -/
def pctHex : List Char → Option (Nat × List Char)
  | h1 :: h2 :: rest =>
    match hexVal h1, hexVal h2 with
    | some a, some b => some (a * 16 + b, rest)
    | _, _ => none
  | _ => none

theorem pctHex_lt (l : List Char) (p : Nat × List Char) (h : pctHex l = some p) :
    p.2.length < l.length := by
  match l with
  | [] => simp [pctHex] at h
  | [h1] => simp [pctHex] at h
  | h1 :: h2 :: rest =>
    simp only [pctHex] at h
    split at h
    · cases h; simp; omega
    · cases h

/-- Byte-level Go url.QueryUnescape, first pass: + becomes space, a percent
escape becomes its byte, any plain character contributes its UTF-8 bytes
verbatim (a Go string is its bytes); none on a malformed escape. -/
def pctDecodeChars : List Char → Option (List Nat)
  | [] => some []
  | c :: rest =>
    if c = '%' then
      match h : pctHex rest with
      | some p => (pctDecodeChars p.2).map (fun bs => p.1 :: bs)
      | none => none
    else if c = '+' then (pctDecodeChars rest).map (fun bs => 32 :: bs)
    else (pctDecodeChars rest).map (fun bs => utf8EncodeChar c.toNat ++ bs)
termination_by l => l.length
decreasing_by
  · exact Nat.lt_succ_of_lt (pctHex_lt _ _ h)
  · simp
  · simp

theorem pctDecodeChars_pct (rest : List Char) (b : Nat) (rest2 : List Char)
    (h : pctHex rest = some (b, rest2)) :
    pctDecodeChars ('%' :: rest) = (pctDecodeChars rest2).map (fun bs => b :: bs) := by
  rw [pctDecodeChars.eq_2]
  rw [if_pos rfl]
  split
  · rename_i p heq
    rw [h] at heq
    cases heq
    rfl
  · rename_i heq
    rw [h] at heq
    cases heq

theorem pctDecodeChars_plus (rest : List Char) :
    pctDecodeChars ('+' :: rest) = (pctDecodeChars rest).map (fun bs => 32 :: bs) := by
  rw [pctDecodeChars.eq_2]
  rw [if_neg (by decide), if_pos rfl]

theorem pctDecodeChars_plain (c : Char) (rest : List Char)
    (h1 : c ≠ '%') (h2 : c ≠ '+') :
    pctDecodeChars (c :: rest) =
      (pctDecodeChars rest).map (fun bs => utf8EncodeChar c.toNat ++ bs) := by
  rw [pctDecodeChars.eq_2]
  rw [if_neg h1, if_neg h2]

/-- Decode of one 2-byte UTF-8 sequence after its lead byte. -/
def utf8Step2 (b : Nat) : List Nat → Option (Nat × List Nat)
  | b2 :: rest =>
    if (0x80 ≤ b2 ∧ b2 < 0xC0) ∧ 0x80 ≤ (b - 0xC0) * 64 + (b2 - 0x80) then
      some ((b - 0xC0) * 64 + (b2 - 0x80), rest)
    else none
  | [] => none

/-- Decode of one 3-byte UTF-8 sequence after its lead byte, rejecting
overlong and surrogate values. -/
def utf8Step3 (b : Nat) : List Nat → Option (Nat × List Nat)
  | b2 :: b3 :: rest =>
    if (0x80 ≤ b2 ∧ b2 < 0xC0) ∧ (0x80 ≤ b3 ∧ b3 < 0xC0)
        ∧ 0x800 ≤ (b - 0xE0) * 4096 + (b2 - 0x80) * 64 + (b3 - 0x80)
        ∧ ((b - 0xE0) * 4096 + (b2 - 0x80) * 64 + (b3 - 0x80) < 0xD800
          ∨ 0xDFFF < (b - 0xE0) * 4096 + (b2 - 0x80) * 64 + (b3 - 0x80)) then
      some ((b - 0xE0) * 4096 + (b2 - 0x80) * 64 + (b3 - 0x80), rest)
    else none
  | _ => none

/-- Decode of one 4-byte UTF-8 sequence after its lead byte, rejecting
overlong and out-of-range values. -/
def utf8Step4 (b : Nat) : List Nat → Option (Nat × List Nat)
  | b2 :: b3 :: b4 :: rest =>
    if (0x80 ≤ b2 ∧ b2 < 0xC0) ∧ (0x80 ≤ b3 ∧ b3 < 0xC0) ∧ (0x80 ≤ b4 ∧ b4 < 0xC0)
        ∧ 0x10000 ≤ (b - 0xF0) * 262144 + (b2 - 0x80) * 4096 + (b3 - 0x80) * 64 + (b4 - 0x80)
        ∧ (b - 0xF0) * 262144 + (b2 - 0x80) * 4096 + (b3 - 0x80) * 64 + (b4 - 0x80) < 0x110000 then
      some ((b - 0xF0) * 262144 + (b2 - 0x80) * 4096 + (b3 - 0x80) * 64 + (b4 - 0x80), rest)
    else none
  | _ => none

/-- Decode of one UTF-8 code point: the decoded value and remaining
bytes. -/
def utf8DecodeStep : List Nat → Option (Nat × List Nat)
  | [] => none
  | b :: rest =>
    if b < 0x80 then some (b, rest)
    else if b < 0xC0 then none
    else if b < 0xE0 then utf8Step2 b rest
    else if b < 0xF0 then utf8Step3 b rest
    else if b < 0xF8 then utf8Step4 b rest
    else none

theorem utf8Step2_lt (b : Nat) (l : List Nat) (p : Nat × List Nat)
    (h : utf8Step2 b l = some p) : p.2.length < l.length := by
  match l with
  | [] => simp [utf8Step2] at h
  | b2 :: rest =>
    simp only [utf8Step2] at h
    split at h
    · cases h; simp
    · cases h

theorem utf8Step3_lt (b : Nat) (l : List Nat) (p : Nat × List Nat)
    (h : utf8Step3 b l = some p) : p.2.length < l.length := by
  match l with
  | [] => simp [utf8Step3] at h
  | [b2] => simp [utf8Step3] at h
  | b2 :: b3 :: rest =>
    simp only [utf8Step3] at h
    split at h
    · cases h; simp; omega
    · cases h

theorem utf8Step4_lt (b : Nat) (l : List Nat) (p : Nat × List Nat)
    (h : utf8Step4 b l = some p) : p.2.length < l.length := by
  match l with
  | [] => simp [utf8Step4] at h
  | [b2] => simp [utf8Step4] at h
  | [b2, b3] => simp [utf8Step4] at h
  | b2 :: b3 :: b4 :: rest =>
    simp only [utf8Step4] at h
    split at h
    · cases h; simp; omega
    · cases h

theorem utf8DecodeStep_lt (l : List Nat) (p : Nat × List Nat)
    (h : utf8DecodeStep l = some p) : p.2.length < l.length := by
  match l with
  | [] => simp [utf8DecodeStep] at h
  | b :: rest =>
    simp only [utf8DecodeStep] at h
    split at h
    · cases h; simp
    · split at h
      · cases h
      · split at h
        · have := utf8Step2_lt b rest p h; simpa using Nat.lt_succ_of_lt this
        · split at h
          · have := utf8Step3_lt b rest p h; simpa using Nat.lt_succ_of_lt this
          · split at h
            · have := utf8Step4_lt b rest p h; simpa using Nat.lt_succ_of_lt this
            · cases h

/-- UTF-8 decoding of a byte list back to characters, one code point at a
time; none on any malformed, overlong, surrogate or out-of-range
sequence. -/
def utf8Decode : List Nat → Option (List Char)
  | [] => some []
  | b :: rest =>
    match h : utf8DecodeStep (b :: rest) with
    | some p => (utf8Decode p.2).map (fun l => Char.ofNat p.1 :: l)
    | none => none
termination_by l => l.length
decreasing_by exact utf8DecodeStep_lt _ _ h

/-- Go url.QueryUnescape on a character list, producing the decoded
string's characters. -/
def queryUnescape (l : List Char) : Option (List Char) :=
  (pctDecodeChars l).bind utf8Decode

/-- strings.Cut on character lists: the part before the first separator and
the part after it (the whole list and [] when the separator is absent). -/
def splitFirst (sep : Char) : List Char → List Char × List Char
  | [] => ([], [])
  | c :: cs =>
    if c = sep then ([], cs)
    else
      let p := splitFirst sep cs
      (c :: p.1, p.2)

theorem splitFirst_snd_le (sep : Char) (l : List Char) :
    (splitFirst sep l).2.length ≤ l.length := by
  induction l with
  | nil => simp [splitFirst]
  | cons c cs ih =>
    simp only [splitFirst]
    split
    · simp
    · simpa using Nat.le_succ_of_le ih

/-- Go url.ParseQuery on a character list: cut on ampersands, reject
semicolons, skip empty segments, cut each segment on its first equals sign
and unescape both halves. Pairs are listed in appearance order. Go collects
the valid segments and reports the first error alongside; this model
returns none on any error, which coincides with Go on error-free input. -/
def parseQueryList (q : List Char) : Option (List (String × String)) :=
  match q with
  | [] => some []
  | c :: cs =>
    let p := splitFirst '&' (c :: cs)
    let segment := p.1
    let rest := p.2
    if segment.contains ';' then none
    else if segment.isEmpty then parseQueryList rest
    else
      let kv := splitFirst '=' segment
      match queryUnescape kv.1, queryUnescape kv.2, parseQueryList rest with
      | some k, some v, some m => some ((String.mk k, String.mk v) :: m)
      | _, _, _ => none
termination_by q.length
decreasing_by
  all_goals
    simp only [splitFirst]
    split
    · simp [Nat.lt_succ_of_le, splitFirst_snd_le]
    · exact Nat.lt_succ_of_le (splitFirst_snd_le _ _)

theorem hexVal_hexDigitU (n : Nat) (h : n < 16) : hexVal (hexDigitU n) = some n := by
  interval_cases n <;> rfl

theorem pctDecode_encodeByte (b : Nat) (hb : b < 256) (rest : List Char) :
    pctDecodeChars (pctEncodeByte b ++ rest) =
      (pctDecodeChars rest).map (fun bs => b :: bs) := by
  have h1 : hexVal (hexDigitU (b / 16)) = some (b / 16) :=
    hexVal_hexDigitU _ (by omega)
  have h2 : hexVal (hexDigitU (b % 16)) = some (b % 16) :=
    hexVal_hexDigitU _ (by omega)
  have hhex : pctHex (hexDigitU (b / 16) :: hexDigitU (b % 16) :: rest)
      = some (b, rest) := by
    simp only [pctHex, h1, h2]
    have h3 : b / 16 * 16 + b % 16 = b := by omega
    rw [h3]
  simp only [pctEncodeByte, List.cons_append, List.nil_append]
  exact pctDecodeChars_pct _ b rest hhex

theorem pctDecode_encodeBytes (bytes : List Nat) (hb : ∀ b ∈ bytes, b < 256)
    (rest : List Char) :
    pctDecodeChars ((bytes.map pctEncodeByte).flatten ++ rest) =
      (pctDecodeChars rest).map (fun bs => bytes ++ bs) := by
  induction bytes with
  | nil => simp
  | cons b bs ih =>
    simp only [List.map_cons, List.flatten_cons, List.append_assoc]
    rw [pctDecode_encodeByte b (hb b (by simp)) _]
    rw [ih (fun x hx => hb x (by simp [hx]))]
    cases pctDecodeChars rest <;> simp

theorem utf8EncodeChar_bytes_lt (n : Nat) (h : n < 0x110000) :
    ∀ b ∈ utf8EncodeChar n, b < 256 := by
  intro b hb
  unfold utf8EncodeChar at hb
  split at hb
  · simp at hb; omega
  · split at hb
    · simp at hb; rcases hb with h1 | h1 <;> omega
    · split at hb
      · simp at hb; rcases hb with h1 | h1 | h1 <;> omega
      · simp at hb; rcases hb with h1 | h1 | h1 | h1 <;> omega


theorem utf8Decode_cons_step (b : Nat) (rest : List Nat) (n : Nat) (rest2 : List Nat)
    (h : utf8DecodeStep (b :: rest) = some (n, rest2)) :
    utf8Decode (b :: rest) = (utf8Decode rest2).map (fun l => Char.ofNat n :: l) := by
  rw [utf8Decode.eq_2]
  split
  · rename_i p heq
    rw [h] at heq
    cases heq
    rfl
  · rename_i heq
    rw [h] at heq
    cases heq

theorem utf8EncodeChar_ne_nil (n : Nat) : utf8EncodeChar n ≠ [] := by
  unfold utf8EncodeChar
  split
  · simp
  · split
    · simp
    · split <;> simp

theorem utf8DecodeStep_encode (c : Char) (bs : List Nat) :
    utf8DecodeStep (utf8EncodeChar c.toNat ++ bs) = some (c.toNat, bs) := by
  have hv : c.toNat < 0xd800 ∨ (0xdfff < c.toNat ∧ c.toNat < 0x110000) := c.valid
  by_cases h1 : c.toNat < 0x80
  · simp only [utf8EncodeChar, if_pos h1, List.cons_append, List.nil_append]
    simp only [utf8DecodeStep, if_pos h1]
  · by_cases h2 : c.toNat < 0x800
    · simp only [utf8EncodeChar, if_neg h1, if_pos h2, List.cons_append,
        List.nil_append]
      simp only [utf8DecodeStep]
      rw [if_neg (by omega), if_neg (by omega), if_pos (by omega)]
      simp only [utf8Step2]
      rw [if_pos (by refine ⟨⟨?_, ?_⟩, ?_⟩ <;> omega)]
      have e : (0xC0 + c.toNat / 64 - 0xC0) * 64 + (0x80 + c.toNat % 64 - 0x80)
          = c.toNat := by omega
      rw [e]
    · by_cases h3 : c.toNat < 0x10000
      · simp only [utf8EncodeChar, if_neg h1, if_neg h2, if_pos h3,
          List.cons_append, List.nil_append]
        simp only [utf8DecodeStep]
        rw [if_neg (by omega), if_neg (by omega), if_neg (by omega),
          if_pos (by omega)]
        simp only [utf8Step3]
        rw [if_pos (by refine ⟨⟨?_, ?_⟩, ⟨?_, ?_⟩, ?_, ?_⟩ <;> omega)]
        have e : (0xE0 + c.toNat / 4096 - 0xE0) * 4096
            + (0x80 + c.toNat / 64 % 64 - 0x80) * 64
            + (0x80 + c.toNat % 64 - 0x80) = c.toNat := by omega
        rw [e]
      · simp only [utf8EncodeChar, if_neg h1, if_neg h2, if_neg h3,
          List.cons_append, List.nil_append]
        simp only [utf8DecodeStep]
        rw [if_neg (by omega), if_neg (by omega), if_neg (by omega),
          if_neg (by omega), if_pos (by omega)]
        simp only [utf8Step4]
        rw [if_pos (by refine ⟨⟨?_, ?_⟩, ⟨?_, ?_⟩, ⟨?_, ?_⟩, ?_, ?_⟩ <;> omega)]
        have e : (0xF0 + c.toNat / 262144 - 0xF0) * 262144
            + (0x80 + c.toNat / 4096 % 64 - 0x80) * 4096
            + (0x80 + c.toNat / 64 % 64 - 0x80) * 64
            + (0x80 + c.toNat % 64 - 0x80) = c.toNat := by omega
        rw [e]

theorem utf8Decode_encode (c : Char) (bs : List Nat) :
    utf8Decode (utf8EncodeChar c.toNat ++ bs) =
      (utf8Decode bs).map (fun l => c :: l) := by
  have hstep := utf8DecodeStep_encode c bs
  rcases henc : utf8EncodeChar c.toNat with _ | ⟨b, t⟩
  · exact absurd henc (utf8EncodeChar_ne_nil _)
  · rw [henc] at hstep
    simp only [List.cons_append] at hstep ⊢
    rw [utf8Decode_cons_step b (t ++ bs) c.toNat bs hstep, Char.ofNat_toNat]

theorem utf8Decode_encode_list (l : List Char) :
    utf8Decode ((l.map (fun c => utf8EncodeChar c.toNat)).flatten) = some l := by
  induction l with
  | nil => simp [utf8Decode]
  | cons c cs ih =>
    simp only [List.map_cons, List.flatten_cons]
    rw [utf8Decode_encode c _, ih]
    rfl

theorem unreserved_facts (c : Char) (h : isUnreservedQueryChar c = true) :
    c.toNat < 128 ∧ c ≠ '%' ∧ c ≠ '+' := by
  simp only [isUnreservedQueryChar, decide_eq_true_eq] at h
  refine ⟨by omega, ?_, ?_⟩
  · intro he
    subst he
    have e : ('%').toNat = 37 := rfl
    rw [e] at h
    omega
  · intro he
    subst he
    have e : ('+').toNat = 43 := rfl
    rw [e] at h
    omega

theorem pctDecode_escapeChar (c : Char) (rest : List Char) :
    pctDecodeChars (queryEscapeChar c ++ rest) =
      (pctDecodeChars rest).map (fun bs => utf8EncodeChar c.toNat ++ bs) := by
  by_cases h : isUnreservedQueryChar c = true
  · obtain ⟨hlt, hpc, hpl⟩ := unreserved_facts c h
    simp only [queryEscapeChar, if_pos h, List.cons_append, List.nil_append]
    rw [pctDecodeChars_plain c rest hpc hpl]
  · by_cases hsp : c = ' '
    · subst hsp
      have hu : queryEscapeChar ' ' = ['+'] := by decide
      rw [hu]
      simp only [List.cons_append, List.nil_append]
      rw [pctDecodeChars_plus rest]
      have e : utf8EncodeChar (Char.toNat ' ') = [32] := by decide
      rw [e]
      cases pctDecodeChars rest <;> rfl
    · simp only [queryEscapeChar, if_neg h, if_neg hsp]
      have hlt : c.toNat < 0x110000 := by
        have hv : c.toNat < 0xd800 ∨ (0xdfff < c.toNat ∧ c.toNat < 0x110000) := c.valid
        omega
      exact pctDecode_encodeBytes _ (utf8EncodeChar_bytes_lt _ hlt) rest

theorem pctDecode_escape_list (l : List Char) :
    pctDecodeChars ((l.map queryEscapeChar).flatten) =
      some ((l.map (fun c => utf8EncodeChar c.toNat)).flatten) := by
  induction l with
  | nil => simp [pctDecodeChars]
  | cons c cs ih =>
    simp only [List.map_cons, List.flatten_cons]
    rw [pctDecode_escapeChar c _, ih]
    rfl

theorem queryUnescape_escape (s : String) :
    queryUnescape (queryEscape s) = some s.data := by
  unfold queryUnescape queryEscape
  rw [pctDecode_escape_list s.data]
  simpa using utf8Decode_encode_list s.data

theorem hexDigitU_not_special (k : Nat) :
    hexDigitU k ≠ '&' ∧ hexDigitU k ≠ '=' ∧ hexDigitU k ≠ ';' := by
  by_cases hk : k < 16
  · interval_cases k <;> exact ⟨by decide, by decide, by decide⟩
  · unfold hexDigitU
    rw [List.getD_eq_default]
    · exact ⟨by decide, by decide, by decide⟩
    · simp
      omega

theorem unreserved_not_special (c : Char) (hu : isUnreservedQueryChar c = true) :
    c ≠ '&' ∧ c ≠ '=' ∧ c ≠ ';' := by
  simp only [isUnreservedQueryChar, decide_eq_true_eq] at hu
  refine ⟨?_, ?_, ?_⟩ <;> intro he <;> subst he
  · have e : ('&').toNat = 38 := rfl
    rw [e] at hu
    omega
  · have e : ('=').toNat = 61 := rfl
    rw [e] at hu
    omega
  · have e : (';').toNat = 59 := rfl
    rw [e] at hu
    omega

theorem queryEscape_chars (s : String) :
    ∀ x ∈ queryEscape s, x ≠ '&' ∧ x ≠ '=' ∧ x ≠ ';' := by
  intro x hx
  unfold queryEscape at hx
  rw [List.mem_flatten] at hx
  obtain ⟨l, hl, hxl⟩ := hx
  rw [List.mem_map] at hl
  obtain ⟨c, _, rfl⟩ := hl
  unfold queryEscapeChar at hxl
  split at hxl
  · rename_i hu
    simp only [List.mem_singleton] at hxl
    subst hxl
    exact unreserved_not_special x hu
  · split at hxl
    · simp only [List.mem_singleton] at hxl
      subst hxl
      exact ⟨by decide, by decide, by decide⟩
    · rw [List.mem_flatten] at hxl
      obtain ⟨l2, hl2, hxl2⟩ := hxl
      rw [List.mem_map] at hl2
      obtain ⟨b, _, rfl⟩ := hl2
      simp only [pctEncodeByte, List.mem_cons, List.mem_singleton] at hxl2
      rcases hxl2 with rfl | rfl | rfl | hxl2
      · exact ⟨by decide, by decide, by decide⟩
      · exact hexDigitU_not_special _
      · exact hexDigitU_not_special _
      · exact absurd hxl2 (by simp)

theorem splitFirst_append_sep (sep : Char) (a b : List Char) (h : sep ∉ a) :
    splitFirst sep (a ++ sep :: b) = (a, b) := by
  induction a with
  | nil => simp [splitFirst]
  | cons x xs ih =>
    simp only [List.cons_append, splitFirst]
    rw [if_neg (by intro he; exact h (by simp [he]))]
    simp only [List.append_eq]
    rw [ih (by intro hm; exact h (by simp [hm]))]

theorem splitFirst_no_sep (sep : Char) (a : List Char) (h : sep ∉ a) :
    splitFirst sep a = (a, []) := by
  induction a with
  | nil => simp [splitFirst]
  | cons x xs ih =>
    simp only [splitFirst]
    rw [if_neg (by intro he; exact h (by simp [he]))]
    rw [ih (by intro hm; exact h (by simp [hm]))]


theorem parse_middle_segment (k v rest kd vd : List Char)
    (hk : ∀ x ∈ k, x ≠ '&' ∧ x ≠ '=' ∧ x ≠ ';')
    (hv : ∀ x ∈ v, x ≠ '&' ∧ x ≠ '=' ∧ x ≠ ';')
    (hknil : k ≠ [])
    (hkd : queryUnescape k = some kd) (hvd : queryUnescape v = some vd) :
    parseQueryList (k ++ '=' :: (v ++ '&' :: rest)) =
      (parseQueryList rest).map
        (fun m => (String.mk kd, String.mk vd) :: m) := by
  obtain ⟨c, k', rfl⟩ : ∃ c k', k = c :: k' := by
    cases k with
    | nil => exact absurd rfl hknil
    | cons c k' => exact ⟨c, k', rfl⟩
  have hseg : '&' ∉ (c :: k') ++ '=' :: v := by
    intro hm
    rcases List.mem_append.mp hm with hm | hm
    · exact (hk _ hm).1 rfl
    · rcases List.mem_cons.mp hm with hm | hm
      · exact absurd hm (by decide)
      · exact (hv _ hm).1 rfl
  have hsplit : splitFirst '&' (((c :: k') ++ '=' :: v) ++ '&' :: rest) =
      ((c :: k') ++ '=' :: v, rest) :=
    splitFirst_append_sep '&' _ rest hseg
  have hl : ((c :: k') ++ '=' :: v) ++ '&' :: rest =
      c :: (k' ++ '=' :: (v ++ '&' :: rest)) := by simp
  rw [hl] at hsplit
  have hsemiMem : ';' ∉ (c :: k') ++ '=' :: v := by
    intro hm
    rcases List.mem_append.mp hm with hm | hm
    · exact (hk _ hm).2.2 rfl
    · rcases List.mem_cons.mp hm with hm | hm
      · exact absurd hm (by decide)
      · exact (hv _ hm).2.2 rfl
  have hsemi : ((c :: k') ++ '=' :: v).contains ';' = false := by
    simpa using hsemiMem
  have hkeq : splitFirst '=' ((c :: k') ++ '=' :: v) = (c :: k', v) :=
    splitFirst_append_sep '=' _ v (by intro hm; exact (hk _ hm).2.1 rfl)
  have hl2 : (c :: k') ++ '=' :: (v ++ '&' :: rest) =
      c :: (k' ++ '=' :: (v ++ '&' :: rest)) := by simp
  rw [hl2, parseQueryList.eq_2, hsplit]
  simp only [hsemi, Bool.false_eq_true, if_false, List.isEmpty_cons,
    Bool.false_eq_true, if_false, hkeq, hkd, hvd]
  cases parseQueryList rest <;> rfl

theorem parse_last_segment (k v kd vd : List Char)
    (hk : ∀ x ∈ k, x ≠ '&' ∧ x ≠ '=' ∧ x ≠ ';')
    (hv : ∀ x ∈ v, x ≠ '&' ∧ x ≠ '=' ∧ x ≠ ';')
    (hknil : k ≠ [])
    (hkd : queryUnescape k = some kd) (hvd : queryUnescape v = some vd) :
    parseQueryList (k ++ '=' :: v) = some [(String.mk kd, String.mk vd)] := by
  obtain ⟨c, k', rfl⟩ : ∃ c k', k = c :: k' := by
    cases k with
    | nil => exact absurd rfl hknil
    | cons c k' => exact ⟨c, k', rfl⟩
  have hseg : '&' ∉ (c :: k') ++ '=' :: v := by
    intro hm
    rcases List.mem_append.mp hm with hm | hm
    · exact (hk _ hm).1 rfl
    · rcases List.mem_cons.mp hm with hm | hm
      · exact absurd hm (by decide)
      · exact (hv _ hm).1 rfl
  have hsplit : splitFirst '&' ((c :: k') ++ '=' :: v) = ((c :: k') ++ '=' :: v, []) :=
    splitFirst_no_sep '&' _ hseg
  have hl : (c :: k') ++ '=' :: v = c :: (k' ++ '=' :: v) := by simp
  have hsemiMem : ';' ∉ (c :: k') ++ '=' :: v := by
    intro hm
    rcases List.mem_append.mp hm with hm | hm
    · exact (hk _ hm).2.2 rfl
    · rcases List.mem_cons.mp hm with hm | hm
      · exact absurd hm (by decide)
      · exact (hv _ hm).2.2 rfl
  have hsemi : ((c :: k') ++ '=' :: v).contains ';' = false := by
    simpa using hsemiMem
  have hkeq : splitFirst '=' ((c :: k') ++ '=' :: v) = (c :: k', v) :=
    splitFirst_append_sep '=' _ v (by intro hm; exact (hk _ hm).2.1 rfl)
  have hne : ((c :: k') ++ '=' :: v).isEmpty = false := by simp
  rw [hl, parseQueryList.eq_2, ← hl, hsplit]
  simp only [hsemi, Bool.false_eq_true, if_false, hne, hkeq, hkd, hvd,
    parseQueryList.eq_1]

theorem sortByKey_leases (v1 v2 v3 : String) :
    sortByKey [("pageIdentifier", v1), ("pageSize", v2), ("userEmail", v3)] =
      [("pageIdentifier", v1), ("pageSize", v2), ("userEmail", v3)] := by
  simp only [sortByKey, insertByKey]
  rw [if_pos (by decide)]

theorem sortByKey_accounts (v1 v2 : String) :
    sortByKey [("pageIdentifier", v1), ("pageSize", v2)] =
      [("pageIdentifier", v1), ("pageSize", v2)] := by
  simp only [sortByKey, insertByKey]
  rw [if_pos (by decide)]

/-- C8: for the paginated request types, BuildQuery on a request with all
fields set, encoded by the standard query codec and parsed back by the
standard query parser, reproduces exactly those fields with no extra
parameters; all-empty and nil requests produce an empty query. -/
theorem buildQuery_roundTrip (v1 v2 v3 w1 w2 : String)
    (h1 : v1 ≠ "") (h2 : v2 ≠ "") (h3 : v3 ≠ "") (g1 : w1 ≠ "") (g2 : w2 ≠ "") :
    parseQueryList (valuesEncode (GetLeasesRequest.BuildQuery (some ⟨v1, v2, v3⟩))) =
      some [("pageIdentifier", v1), ("pageSize", v2), ("userEmail", v3)]
    ∧ parseQueryList (valuesEncode (GetAccountsRequest.BuildQuery (some ⟨w1, w2⟩))) =
      some [("pageIdentifier", w1), ("pageSize", w2)]
    ∧ GetLeasesRequest.BuildQuery (some ⟨"", "", ""⟩) = []
    ∧ GetLeasesRequest.BuildQuery none = []
    ∧ GetAccountsRequest.BuildQuery (some ⟨"", ""⟩) = []
    ∧ GetAccountsRequest.BuildQuery none = []
    ∧ valuesEncode [] = []
    ∧ parseQueryList [] = some [] := by
  refine ⟨?_, ?_, by simp [GetLeasesRequest.BuildQuery], rfl,
    by simp [GetAccountsRequest.BuildQuery], rfl, rfl,
    by rw [parseQueryList.eq_1]⟩
  · have hbq : GetLeasesRequest.BuildQuery (some ⟨v1, v2, v3⟩) =
        [("pageIdentifier", v1), ("pageSize", v2), ("userEmail", v3)] := by
      simp [GetLeasesRequest.BuildQuery, h1, h2, h3]
    rw [hbq, valuesEncode, sortByKey_leases]
    simp only [List.map_cons, List.map_nil, joinAmp]
    simp only [List.append_assoc, List.cons_append]
    rw [parse_middle_segment (queryEscape "pageIdentifier") (queryEscape v1) _
      _ _ (queryEscape_chars "pageIdentifier") (queryEscape_chars v1) (by decide)
      (queryUnescape_escape "pageIdentifier") (queryUnescape_escape v1)]
    rw [parse_middle_segment (queryEscape "pageSize") (queryEscape v2) _
      _ _ (queryEscape_chars "pageSize") (queryEscape_chars v2) (by decide)
      (queryUnescape_escape "pageSize") (queryUnescape_escape v2)]
    rw [parse_last_segment (queryEscape "userEmail") (queryEscape v3)
      _ _ (queryEscape_chars "userEmail") (queryEscape_chars v3) (by decide)
      (queryUnescape_escape "userEmail") (queryUnescape_escape v3)]
    rfl
  · have hbq : GetAccountsRequest.BuildQuery (some ⟨w1, w2⟩) =
        [("pageIdentifier", w1), ("pageSize", w2)] := by
      simp [GetAccountsRequest.BuildQuery, g1, g2]
    rw [hbq, valuesEncode, sortByKey_accounts]
    simp only [List.map_cons, List.map_nil, joinAmp]
    simp only [List.append_assoc, List.cons_append]
    rw [parse_middle_segment (queryEscape "pageIdentifier") (queryEscape w1) _
      _ _ (queryEscape_chars "pageIdentifier") (queryEscape_chars w1) (by decide)
      (queryUnescape_escape "pageIdentifier") (queryUnescape_escape w1)]
    rw [parse_last_segment (queryEscape "pageSize") (queryEscape w2)
      _ _ (queryEscape_chars "pageSize") (queryEscape_chars w2) (by decide)
      (queryUnescape_escape "pageSize") (queryUnescape_escape w2)]
    rfl

theorem buildQuery_roundTrip_witness :
    parseQueryList (valuesEncode (GetLeasesRequest.BuildQuery
        (some ⟨"next", "20", "user@example.com"⟩))) =
      some [("pageIdentifier", "next"), ("pageSize", "20"),
        ("userEmail", "user@example.com")] :=
  (buildQuery_roundTrip "next" "20" "user@example.com" "p" "5"
    (by decide) (by decide) (by decide) (by decide) (by decide)).1
